/-
Verification of the Airbnb-BI price-prediction pipeline
(`etl_script & model/airbnb_price_predictor.py` and `deploy.py`)
against its natural-language specification.

The predictor's data flow — input validation, feature engineering,
preprocessing (schema fill, label encoding, scaling), model invocation,
ensemble blending and result assembly — is shallowly embedded below.
Python floats are modelled as exact rationals (ℚ).  The trained models,
the scaler transform and the label-encoder class lists are opaque
artifacts, so they appear as parameters of the artifact bundle:
models as `List ℚ → ℚ`, the scaler as `List ℚ → List ℚ`, an encoder as
its list of known classes.  Two transcendental feature values are
represented by their (rational) pre-images, as documented at their
definitions: `host_experience` by `1 + count` (the code stores
`ln` of it) and `distance_to_manhattan` by the squared distance (the
code stores its square root); both maps are injective and increasing on
the relevant domain, so every statement made here determines the
corresponding statement about the code's value.
-/
import Mathlib

deriving instance DecidableEq for Except

namespace Airbnb

/-- A cell of the pandas DataFrame built in `_engineer_features`:
either a string, a (rational-modelled float) number, or NaN.
NaN arises only in the `season` column, when `month` is not one of the
integers 1..12 (`df['month'].map(season_mapping)` yields NaN then). -/
inductive FValue where
  | str (s : String)
  | num (q : ℚ)
  | nan
  deriving DecidableEq, Repr

/-- First value stored under key `k` in an association list; models both
python dict lookup (`d[k]` / `k in d`) and DataFrame column access. -/
def getCol {α : Type} (k : String) : List (String × α) → Option α
  | [] => none
  | (n, v) :: t => if n = k then some v else getCol k t

/-- Overwrite every entry named `k` with value `v`; models the
DataFrame column assignment `df[k] = v` (single-row frame). -/
def setCol {α : Type} (k : String) (v : α) : List (String × α) → List (String × α)
  | [] => []
  | (n, w) :: t => if n = k then (k, v) :: setCol k v t else (n, w) :: setCol k v t

/-- Position of `s` in a label encoder's `classes_` list;
`none` models the `ValueError` sklearn raises for an unseen label. -/
def idxOf (s : String) : List String → Option ℕ
  | [] => none
  | c :: t => if c = s then some 0 else (idxOf s t).map (· + 1)

@[simp] theorem getCol_nil {α : Type} (k : String) :
    getCol (α := α) k [] = none := rfl

@[simp] theorem getCol_cons {α : Type} (k n : String) (v : α) (t : List (String × α)) :
    getCol k ((n, v) :: t) = if n = k then some v else getCol k t := rfl

theorem getCol_append {α : Type} (k : String) (l₁ l₂ : List (String × α)) :
    getCol k (l₁ ++ l₂) = ((getCol k l₁).rec (getCol k l₂) (fun v => some v)) := by
  induction l₁ with
  | nil => rfl
  | cons p t ih =>
    obtain ⟨n, v⟩ := p
    by_cases h : n = k <;> simp [getCol, h, ih]

theorem getCol_append_of_isSome {α : Type} (k : String) {l₁ : List (String × α)}
    (l₂ : List (String × α)) (h : (getCol k l₁).isSome) :
    getCol k (l₁ ++ l₂) = getCol k l₁ := by
  rw [getCol_append]
  obtain ⟨v, hv⟩ := Option.isSome_iff_exists.mp h
  rw [hv]

theorem getCol_append_of_none {α : Type} (k : String) {l₁ : List (String × α)}
    (l₂ : List (String × α)) (h : getCol k l₁ = none) :
    getCol k (l₁ ++ l₂) = getCol k l₂ := by
  rw [getCol_append, h]

@[simp] theorem getCol_setCol_self {α : Type} (k : String) (v : α)
    (l : List (String × α)) :
    getCol k (setCol k v l) = (getCol k l).map (fun _ => v) := by
  induction l with
  | nil => rfl
  | cons p t ih =>
    obtain ⟨n, w⟩ := p
    by_cases h : n = k
    · subst h
      simp [setCol, getCol, ih]
    · simp [setCol, getCol, h, ih]

theorem getCol_setCol_self_of_isSome {α : Type} (k : String) (v : α)
    {l : List (String × α)} (h : (getCol k l).isSome) :
    getCol k (setCol k v l) = some v := by
  obtain ⟨w, hw⟩ := Option.isSome_iff_exists.mp h
  rw [getCol_setCol_self, hw, Option.map_some']

theorem getCol_setCol_ne {α : Type} {k k' : String} (v : α)
    (l : List (String × α)) (h : k' ≠ k) :
    getCol k' (setCol k v l) = getCol k' l := by
  induction l with
  | nil => rfl
  | cons p t ih =>
    obtain ⟨n, w⟩ := p
    by_cases hn : n = k
    · subst hn
      simp [setCol, getCol, Ne.symm h, ih]
    · by_cases hk : n = k'
      · subst hk
        simp [setCol, getCol, h, ih]
      · simp [setCol, getCol, hn, hk, ih]

theorem getCol_setCol_isSome {α : Type} (k k' : String) (v : α)
    (l : List (String × α)) :
    (getCol k' (setCol k v l)).isSome = (getCol k' l).isSome := by
  by_cases h : k' = k
  · subst h; simp
  · rw [getCol_setCol_ne v l h]

/-! ### Input records and validation (`_validate_input`, lines 185–230) -/

/-- A raw prediction request.  The nine required fields are plain; the
five optional fields (`reviews_per_month`, `day`, `month`, `year`,
`is_weekend`) are `Option`s, `none` meaning the key is absent so that
`setdefault` fills it. -/
structure RawInput where
  neighbourhood_group : String
  neighbourhood : String
  room_type : String
  latitude : ℚ
  longitude : ℚ
  minimum_nights : ℚ
  availability_365 : ℚ
  number_of_reviews : ℚ
  calculated_host_listings_count : ℚ
  reviews_per_month : Option ℚ
  day : Option ℚ
  month : Option ℚ
  year : Option ℚ
  is_weekend : Option ℚ
  deriving DecidableEq, Repr

/-- The dictionary returned by `_validate_input`: all optional fields
have received their `setdefault` values. -/
structure ValidatedInput where
  neighbourhood_group : String
  neighbourhood : String
  room_type : String
  latitude : ℚ
  longitude : ℚ
  minimum_nights : ℚ
  availability_365 : ℚ
  number_of_reviews : ℚ
  calculated_host_listings_count : ℚ
  reviews_per_month : ℚ
  day : ℚ
  month : ℚ
  year : ℚ
  is_weekend : ℚ
  deriving DecidableEq, Repr

/-- `_validate_input` (lines 185–230): range checks in source order,
each failure raising `ValueError` with a message naming the field,
then `setdefault` for the optional fields. -/
def validate_input (x : RawInput) : Except String ValidatedInput :=
  if ¬ (-90 ≤ x.latitude ∧ x.latitude ≤ 90) then
    .error ("Invalid latitude: " ++ toString x.latitude)
  else if ¬ (-180 ≤ x.longitude ∧ x.longitude ≤ 180) then
    .error ("Invalid longitude: " ++ toString x.longitude)
  else if x.minimum_nights < 0 then
    .error ("Invalid minimum_nights: " ++ toString x.minimum_nights)
  else if ¬ (0 ≤ x.availability_365 ∧ x.availability_365 ≤ 365) then
    .error ("Invalid availability_365: " ++ toString x.availability_365)
  else if x.number_of_reviews < 0 then
    .error ("Invalid number_of_reviews: " ++ toString x.number_of_reviews)
  else if x.calculated_host_listings_count < 0 then
    .error ("Invalid calculated_host_listings_count: " ++
      toString x.calculated_host_listings_count)
  else
    .ok { neighbourhood_group := x.neighbourhood_group
          neighbourhood := x.neighbourhood
          room_type := x.room_type
          latitude := x.latitude
          longitude := x.longitude
          minimum_nights := x.minimum_nights
          availability_365 := x.availability_365
          number_of_reviews := x.number_of_reviews
          calculated_host_listings_count := x.calculated_host_listings_count
          reviews_per_month := x.reviews_per_month.getD 0
          day := x.day.getD 15
          month := x.month.getD 6
          year := x.year.getD 2024
          is_weekend := x.is_weekend.getD 0 }

/-- `True` iff `_validate_input` does not raise. -/
def valid_input (x : RawInput) : Bool :=
  match validate_input x with
  | .ok _ => true
  | .error _ => false

/-! ### Feature engineering (`_engineer_features`, lines 232–375) -/

/-- `host_activity_mapping.get(x, 'Active')` guarded by
`'Professional' if x > 10` (lines 266–273).  Any count ≤ 10 that is not
one of the listed integer keys falls to the dict default `'Active'`. -/
def host_activity_of (c : ℚ) : String :=
  if 10 < c then "Professional"
  else if c = 0 ∨ c = 1 then "New"
  else if c = 2 ∨ c = 3 then "Casual"
  else "Active"

/-- `season_mapping` (lines 298–304); `none` is the NaN that
`Series.map` yields for a month outside the integer keys 1..12. -/
def season_of (m : ℚ) : Option String :=
  if m = 12 ∨ m = 1 ∨ m = 2 then some "Winter"
  else if m = 3 ∨ m = 4 ∨ m = 5 then some "Spring"
  else if m = 6 ∨ m = 7 ∨ m = 8 then some "Summer"
  else if m = 9 ∨ m = 10 ∨ m = 11 then some "Fall"
  else none

/-- `categorize_availability` (lines 309–317). -/
def categorize_availability (days : ℚ) : String :=
  if days ≤ 60 then "Limited"
  else if days ≤ 180 then "Seasonal"
  else if days ≤ 300 then "Regular"
  else "Always"

/-- `categorize_min_nights` (lines 326–336). -/
def categorize_min_nights (nights : ℚ) : String :=
  if nights ≤ 1 then "Flexible"
  else if nights ≤ 3 then "Short"
  else if nights ≤ 7 then "Week"
  else if nights ≤ 30 then "Month"
  else "Long-term"

/-- `categorize_booking_intensity` (lines 360–368),
applied to `booked_days = 365 - availability_365`. -/
def categorize_booking_intensity (days : ℚ) : String :=
  if days ≤ 50 then "Low"
  else if days ≤ 150 then "Medium"
  else if days ≤ 300 then "High"
  else "Very High"

/-- `nyc_avg_prices` (lines 284–287). -/
def nyc_avg_prices : List (String × ℚ) :=
  [("Manhattan", 150), ("Brooklyn", 100), ("Queens", 80),
   ("Bronx", 70), ("Staten Island", 75)]

/-- `nyc_densities` (lines 291–294). -/
def nyc_densities : List (String × ℚ) :=
  [("Manhattan", 5000), ("Brooklyn", 3000), ("Queens", 2000),
   ("Bronx", 1500), ("Staten Island", 800)]

/-- Reference point of `distance_to_manhattan` (line 276). -/
def manhattan_center_lat : ℚ := 407589 / 10000
/-- Reference point of `distance_to_manhattan` (line 276). -/
def manhattan_center_lon : ℚ := -739851 / 10000

/-- `_engineer_features`: the single-row DataFrame as an association
list, columns in creation order — the input dictionary's columns first,
then the derived columns of lines 246–373.  Two columns whose code
values are transcendental are represented by injective rational
pre-images:
* `host_experience` stores `1 + count`; the code stores
  `log1p(count) = ln (1 + count)` (line 262);
* `distance_to_manhattan` stores the squared Euclidean distance; the
  code stores its square root (lines 277–280).
Both substitutions are strictly increasing bijections onto their
ranges, so equalities and comparisons of the true values correspond
one-to-one to equalities and comparisons of the stored ones. -/
def engineer_features (d : ValidatedInput) : List (String × FValue) :=
  [ ("neighbourhood_group", .str d.neighbourhood_group),
    ("neighbourhood", .str d.neighbourhood),
    ("room_type", .str d.room_type),
    ("latitude", .num d.latitude),
    ("longitude", .num d.longitude),
    ("minimum_nights", .num d.minimum_nights),
    ("availability_365", .num d.availability_365),
    ("number_of_reviews", .num d.number_of_reviews),
    ("reviews_per_month", .num d.reviews_per_month),
    ("calculated_host_listings_count", .num d.calculated_host_listings_count),
    ("day", .num d.day),
    ("month", .num d.month),
    ("year", .num d.year),
    ("is_weekend", .num d.is_weekend),
    ("reviews_per_month_filled", .num d.reviews_per_month),
    ("price_category", .str "Mid-range"),
    ("review_density", .num (d.number_of_reviews / (d.availability_365 + 1))),
    ("has_reviews", .num (if 0 < d.number_of_reviews then 1 else 0)),
    ("review_frequency", .num (if 0 < d.reviews_per_month then
        d.number_of_reviews / d.reviews_per_month else 0)),
    ("host_experience", .num (1 + d.calculated_host_listings_count)),
    ("is_super_host", .num (if 5 < d.calculated_host_listings_count then 1 else 0)),
    ("host_activity_level", .str (host_activity_of d.calculated_host_listings_count)),
    ("distance_to_manhattan", .num ((d.latitude - manhattan_center_lat) ^ 2 +
        (d.longitude - manhattan_center_lon) ^ 2)),
    ("neighbourhood_avg_price",
        .num ((getCol d.neighbourhood_group nyc_avg_prices).getD 100)),
    ("neighbourhood_density",
        .num ((getCol d.neighbourhood_group nyc_densities).getD 2000)),
    ("season", match season_of d.month with
        | some s => .str s
        | none => .nan),
    ("is_peak_season", .num (if season_of d.month = some "Summer" ∨
        season_of d.month = some "Fall" then 1 else 0)),
    ("quarter", .num (((⌊(d.month - 1) / 3⌋ : ℤ) : ℚ) + 1)),
    ("availability_category", .str (categorize_availability d.availability_365)),
    ("availability_ratio", .num (d.availability_365 / 365)),
    ("is_highly_available", .num (if 300 < d.availability_365 then 1 else 0)),
    ("is_short_stay", .num (if d.minimum_nights ≤ 3 then 1 else 0)),
    ("min_nights_category", .str (categorize_min_nights d.minimum_nights)),
    ("reviews_x_availability", .num (d.number_of_reviews * d.availability_365)),
    ("host_listings_x_reviews",
        .num (d.calculated_host_listings_count * d.number_of_reviews)),
    ("location_premium", .num ((if d.neighbourhood_group = "Manhattan"
        then 1 else 0) * d.latitude)),
    ("price_per_review", .num 100),
    ("availability_efficiency", .num (if 0 < d.availability_365 then
        d.number_of_reviews / d.availability_365 else 0)),
    ("booking_intensity", .str (categorize_booking_intensity (365 - d.availability_365))),
    ("price_ratio_to_neighbourhood", .num 1) ]

/-- The engineered columns that hold strings (or, for `season`, possibly
NaN); every other column always holds a number. -/
def string_cols : List String :=
  ["neighbourhood_group", "neighbourhood", "room_type", "price_category",
   "host_activity_level", "season", "availability_category",
   "min_nights_category", "booking_intensity"]

/-! ### The loaded artifact bundle (`__init__` / `_load_models`) -/

/-- A label-encoder map: feature name ↦ the encoder's `classes_`. -/
abbrev Encoders := List (String × List String)

/-- The state an `AirbnbPricePredictor` holds after `_load_models`:
the four models and the scaler are opaque artifacts (absent file ↦
`none`), plus the schema metadata from the preprocessing pickle. -/
structure Bundle where
  neural_network : Option (List ℚ → ℚ)
  rf_model : Option (List ℚ → ℚ)
  gb_model : Option (List ℚ → ℚ)
  ridge_model : Option (List ℚ → ℚ)
  scaler : Option (List ℚ → List ℚ)
  label_encoders : Encoders
  all_features : List String
  categorical_features : List String
  numerical_features : List String
  binary_features : List String
  ensemble_weights : Option (List ℚ)
  model_version : String

/-- The `is_ensemble` flag as `_load_ensemble_models` sets it
(line 140): all three classical regressors loaded and blend weights
present. -/
def is_ensemble (b : Bundle) : Bool :=
  b.rf_model.isSome && b.gb_model.isSome && b.ridge_model.isSome &&
    b.ensemble_weights.isSome

/-! ### Preprocessing (`_preprocess_features`, lines 377–437) -/

/-- The degraded-feature events `_preprocess_features` reports through
`logger.warning`. -/
inductive Warn where
  | missingFeature (f : String)
  | unseenCategory (f : String)
  | noEncoder (f : String)
  | noScaler
  deriving DecidableEq, Repr

/-- Default for a schema feature absent from the engineered frame
(lines 389–395): `'Unknown'` for categorical, `0` for binary, `0.0`
otherwise (the binary/numeric cases coincide under the ℚ model, but the
three-way branch is kept as in the source). -/
def default_fill (b : Bundle) (f : String) : FValue :=
  if f ∈ b.categorical_features then .str "Unknown"
  else if f ∈ b.binary_features then .num 0
  else .num 0

/-- Lines 388–396: append a default-valued column for every schema
feature missing from the frame, logging a warning for each. -/
def fill_missing (b : Bundle) (cols : List (String × FValue)) :
    List (String × FValue) × List Warn :=
  let missing := b.all_features.filter (fun f => (getCol f cols).isNone)
  (cols ++ missing.map (fun f => (f, default_fill b f)),
   missing.map Warn.missingFeature)

/-- Line 399, `df[self.all_features]`: select and order the schema
columns.  The `getD` default is unreachable after `fill_missing`. -/
def select_features (b : Bundle) (filled : List (String × FValue)) :
    List (String × FValue) :=
  b.all_features.map (fun f => (f, (getCol f filled).getD (.num 0)))

/-- `str(value)` as used by the fallback `fit_transform` on the
single-row column (line 417); rational rendering stands in for
python's float formatting. -/
def fvalue_str : FValue → String
  | .str s => s
  | .num q => toString q
  | .nan => "nan"

/-- `le.transform` on the one-element column: the position of the value
among the encoder's classes, `none` for the `ValueError` on an unseen
label (a numeric or NaN cell is never among the string classes). -/
def encode_value (classes : List String) : FValue → Option ℕ
  | .str s => idxOf s classes
  | _ => none

/-- One iteration of the loop of lines 402–418 for feature `f`:
if the column exists, either apply its stored encoder (unseen label ↦
`0` plus a warning) or — mutating the shared encoder map — fit a fresh
single-class encoder on the column, which encodes it to `0`. -/
def apply_enc_step (E : Encoders) (cv : List (String × FValue))
    (ws : List Warn) (f : String) :
    Encoders × List (String × FValue) × List Warn :=
  match getCol f cv with
  | none => (E, cv, ws)
  | some v =>
    match getCol f E with
    | some classes =>
      match encode_value classes v with
      | some k => (E, setCol f (.num k) cv, ws)
      | none => (E, setCol f (.num 0) cv, ws ++ [.unseenCategory f])
    | none =>
      (E ++ [(f, [fvalue_str v])], setCol f (.num 0) cv,
       ws ++ [.noEncoder f])

/-- The whole loop of lines 402–418 over `categorical_features`. -/
def apply_encoders (E : Encoders) (cv : List (String × FValue))
    (ws : List Warn) : List String →
    Encoders × List (String × FValue) × List Warn
  | [] => (E, cv, ws)
  | f :: fs =>
    let st := apply_enc_step E cv ws f
    apply_encoders st.1 st.2.1 st.2.2 fs

/-- Line 421, `df_features.astype(float)`: a remaining string cell
raises (propagated to `predict`'s catch-all).  A NaN cell is likewise
modelled as a failure; in NumPy it would flow onward as NaN — this
corner is reachable only when a string-valued column is listed in
`all_features` but not in `categorical_features`, and every theorem
below touching this stage carries a well-formedness hypothesis
excluding that. -/
def astype_float : List (String × FValue) → Except String (List ℚ)
  | [] => .ok []
  | (_, .num q) :: t => (astype_float t).map (fun l => q :: l)
  | (_, .str s) :: _ => .error ("could not convert string to float: " ++ s)
  | (_, .nan) :: _ => .error "cannot convert float NaN to float"

/-- Lines 424–437.  With a loaded scaler, apply its opaque transform.
Without one, the fallback `(df - df.mean()) / (df.std() + 1e-8)` on a
single-row frame is all NaN (pandas' sample std of one row is NaN), and
the subsequent `fillna(0)` zeroes every entry, with a warning.
The `except` branch of line 433 is unreachable for the opaque total
transform and is not modelled. -/
def scale_features (b : Bundle) (v : List ℚ) : List ℚ × List Warn :=
  match b.scaler with
  | some s => (s v, [])
  | none => (v.map (fun _ => 0), [.noScaler])

/-- The encoder map, columns and warnings after the label-encoding
loop: lines 388–418 applied to the engineered frame. -/
def encoded_state (b : Bundle) (cols : List (String × FValue)) :
    Encoders × List (String × FValue) × List Warn :=
  apply_encoders b.label_encoders
    (select_features b (fill_missing b cols).1) [] b.categorical_features

/-- `_preprocess_features`: fill missing schema features, select and
order, label-encode, cast to float, scale.  Returns the scaled vector
(or the cast error), the warnings logged, and the label-encoder map
after the loop's in-place mutation. -/
def preprocess_features (b : Bundle) (cols : List (String × FValue)) :
    Except String (List ℚ) × List Warn × Encoders :=
  match astype_float (encoded_state b cols).2.1 with
  | .error e =>
    (.error e, (fill_missing b cols).2 ++ (encoded_state b cols).2.2,
     (encoded_state b cols).1)
  | .ok v =>
    (.ok (scale_features b v).1,
     (fill_missing b cols).2 ++ (encoded_state b cols).2.2 ++
       (scale_features b v).2,
     (encoded_state b cols).1)

/-! ### Prediction (`predict`, lines 439–538) -/

/-- Round half to even, as python's `round` ties; exact-rational
rounding stands in for the float rounding of `round(x, 2)`. -/
def bankers_round (q : ℚ) : ℤ :=
  if q - ⌊q⌋ < 1 / 2 then ⌊q⌋
  else if 1 / 2 < q - ⌊q⌋ then ⌊q⌋ + 1
  else if ⌊q⌋ % 2 = 0 then ⌊q⌋ else ⌊q⌋ + 1

/-- `round(x, 2)`. -/
def round2 (q : ℚ) : ℚ := (bankers_round (100 * q) : ℚ) / 100

/-- `sum(w * p for w, p in zip(weights, preds))` (line 489):
truncating pairwise product sum. -/
def zip_sum : List ℚ → List ℚ → ℚ
  | [], _ => 0
  | _, [] => 0
  | w :: ws, p :: ps => w * p + zip_sum ws ps

/-- Population variance, the square of `np.std` (line 520).  The code
stores `round(float(np.std(vals)), 2)`; squaring `np.std` is injective
and increasing on the nonnegatives, so the variance recorded here
determines the code's standard deviation. -/
def pop_var (l : List ℚ) : ℚ :=
  let n : ℚ := l.length
  let m := l.sum / n
  (l.map (fun x => (x - m) ^ 2)).sum / n

/-- `min(list)` over a nonempty python list. -/
def list_min : List ℚ → ℚ
  | [] => 0
  | h :: t => t.foldl min h

/-- `max(list)` over a nonempty python list. -/
def list_max : List ℚ → ℚ
  | [] => 0
  | h :: t => t.foldl max h

/-- Lines 460–490: the `predictions` dict in insertion order — the
network model, then (in ensemble mode) the three classical regressors,
then the blended `'ensemble'` entry when the dict has more than one
entry and weights are present. -/
def run_models (b : Bundle) (v : List ℚ) : List (String × ℚ) :=
  let ps : List (String × ℚ) :=
    match b.neural_network with
    | some f => [("neural_network", f v)]
    | none => []
  if is_ensemble b then
    let ps := ps ++ (match b.rf_model with
      | some f => [("random_forest", f v)] | none => [])
    let ps := ps ++ (match b.gb_model with
      | some f => [("gradient_boosting", f v)] | none => [])
    let ps := ps ++ (match b.ridge_model with
      | some f => [("ridge", f v)] | none => [])
    if 1 < ps.length then
      match b.ensemble_weights with
      | some w =>
        ps ++ [("ensemble", zip_sum w
          [(getCol "neural_network" ps).getD 0,
           (getCol "random_forest" ps).getD 0,
           (getCol "gradient_boosting" ps).getD 0,
           (getCol "ridge" ps).getD 0])]
      | none => ps
    else ps
  else ps

/-- The success dictionary of lines 506–525.  `prediction_var` records
the square of the code's `prediction_std` (see `pop_var`); both it and
`prediction_range` are present exactly when `len(predictions) > 1`. -/
structure SuccessResult where
  predicted_price : ℚ
  model_used : String
  model_version : String
  individual_predictions : List (String × ℚ)
  confidence_level : String
  features_used : ℕ
  input_validation : String
  warnings : List String
  prediction_var : Option ℚ
  prediction_range : Option (ℚ × ℚ)
  deriving DecidableEq, Repr

/-- The error dictionary of lines 532–538; its remaining keys are the
constants `predicted_price: None`, `model_used: None`,
`confidence_level: 'error'`, surfaced through the projections on
`PredResult` below. -/
structure ErrorResult where
  error : String
  model_version : String
  deriving DecidableEq, Repr

/-- A `predict` return value: the success dict or the error dict. -/
inductive PredResult where
  | ok (r : SuccessResult)
  | err (e : ErrorResult)
  deriving DecidableEq, Repr

/-- `result['predicted_price']` (`None` on the error dict). -/
def PredResult.predicted_priceO : PredResult → Option ℚ
  | .ok r => some r.predicted_price
  | .err _ => none

/-- `result['model_used']` (`None` on the error dict). -/
def PredResult.model_usedO : PredResult → Option String
  | .ok r => some r.model_used
  | .err _ => none

/-- `result['confidence_level']`. -/
def PredResult.confidence_levelP : PredResult → String
  | .ok r => r.confidence_level
  | .err _ => "error"

/-- `result.get('error')` (the success dict has no such key). -/
def PredResult.errorO : PredResult → Option String
  | .ok _ => none
  | .err e => some e.error

/-- `result.get('warnings')` (the error dict has no such key). -/
def PredResult.warningsO : PredResult → Option (List String)
  | .ok r => some r.warnings
  | .err _ => none

/-- `result['individual_predictions']` (absent from the error dict). -/
def PredResult.individualO : PredResult → Option (List (String × ℚ))
  | .ok r => some r.individual_predictions
  | .err _ => none

/-- `result['individual_predictions'].get(k)`. -/
def PredResult.lookup_individual : PredResult → String → Option ℚ
  | .ok r, k => getCol k r.individual_predictions
  | .err _, _ => none

/-- The key set of the success dictionary, in insertion order
(lines 506–525): the eight unconditional keys, then
`prediction_std` / `prediction_range` when they were added. -/
def success_keys (r : SuccessResult) : List String :=
  ["predicted_price", "model_used", "model_version",
   "individual_predictions", "confidence_level", "features_used",
   "input_validation", "warnings"] ++
  (if r.prediction_var.isSome then ["prediction_std", "prediction_range"]
   else [])

/-- Lines 502–525: clamp the selected estimate to `[10, 10000]`,
round, and assemble the success dictionary. -/
def make_result (b : Bundle) (ps : List (String × ℚ)) (fp : ℚ)
    (used : String) : SuccessResult :=
  let clamped := max 10 (min 10000 fp)
  let vals := ps.map Prod.snd
  { predicted_price := round2 clamped
    model_used := used
    model_version := b.model_version
    individual_predictions := ps
    confidence_level := if is_ensemble b then "high" else "medium"
    features_used := b.all_features.length
    input_validation := "passed"
    warnings := []
    prediction_var := if 1 < ps.length then some (pop_var vals) else none
    prediction_range := if 1 < ps.length then
        some (round2 (list_min vals), round2 (list_max vals)) else none }

/-- Lines 492–500: prefer the `'ensemble'` entry, else the
`'neural_network'` entry, else raise `No model predictions available`;
then post-process and package (lines 502–525). -/
def select_and_package (b : Bundle) (ps : List (String × ℚ)) : PredResult :=
  match getCol "ensemble" ps with
  | some fp => .ok (make_result b ps fp "ensemble")
  | none =>
    match getCol "neural_network" ps with
    | some fp => .ok (make_result b ps fp "neural_network")
    | none => .err ⟨"No model predictions available", b.model_version⟩

/-- `predict` (lines 439–538): validate, engineer, preprocess, run the
models, select, post-process; every raise is caught and packaged as
the error dictionary.  The second component is `self.label_encoders`
after the call (the loop of lines 402–418 may have installed fallback
encoders even when a later stage fails); `preprocess_features` is a
pure function, so writing it per component is equivalent to the
single call the source makes. -/
def predict (b : Bundle) (x : RawInput) : PredResult × Encoders :=
  match validate_input x with
  | .error msg => (.err ⟨msg, b.model_version⟩, b.label_encoders)
  | .ok vd =>
    match (preprocess_features b (engineer_features vd)).1 with
    | .error msg =>
      (.err ⟨msg, b.model_version⟩,
       (preprocess_features b (engineer_features vd)).2.2)
    | .ok v =>
      (select_and_package b (run_models b v),
       (preprocess_features b (engineer_features vd)).2.2)

/-- The loop body of `predict_batch` (lines 550–563), threading the
predictor's (possibly mutated) encoder map and tagging each result
with `batch_index = i`.  The `except` arm of lines 556–563 is dead:
`predict` catches every exception itself. -/
def predict_batch_from (b : Bundle) (E : Encoders) (i : ℕ) :
    List RawInput → List (PredResult × ℕ) × Encoders
  | [] => ([], E)
  | x :: xs =>
    let r := predict { b with label_encoders := E } x
    let rest := predict_batch_from b r.2 (i + 1) xs
    ((r.1, i) :: rest.1, rest.2)

/-- `predict_batch` (lines 540–564). -/
def predict_batch (b : Bundle) (xs : List RawInput) :
    List (PredResult × ℕ) × Encoders :=
  predict_batch_from b b.label_encoders 0 xs

/-- A bundle whose schema never sends a string (or NaN) cell into
`astype(float)`: every engineered string column that the schema lists
is declared categorical, so it gets label-encoded to a number. -/
def BundleWF (b : Bundle) : Prop :=
  ∀ f ∈ string_cols, f ∈ b.all_features → f ∈ b.categorical_features

instance (b : Bundle) : Decidable (BundleWF b) := by
  unfold BundleWF; infer_instance

/-! ### The Flask façade (`deploy.py`) -/

/-- `valid_borough` (line 107). -/
def valid_borough : List String :=
  ["Manhattan", "Brooklyn", "Queens", "Bronx", "Staten Island"]

/-- `valid_room_types` (line 111). -/
def valid_room_types : List String :=
  ["Entire home/apt", "Private room", "Shared room"]

/-- `validate_prediction_input` (deploy.py lines 59–118): the error
list accumulated over the range and category checks, and the boolean
`len(errors) == 0`.  (Required-key presence and numeric casts concern
untyped JSON and are outside the typed `RawInput` model.) -/
def validate_prediction_input (d : RawInput) : Bool × List String :=
  let errors :=
    (if ¬ (-90 ≤ d.latitude ∧ d.latitude ≤ 90) then
        ["Latitude must be between -90 and 90"] else []) ++
    (if ¬ (-180 ≤ d.longitude ∧ d.longitude ≤ 180) then
        ["Longitude must be between -180 and 180"] else []) ++
    (if d.minimum_nights < 0 then
        ["minimum_nights must be non-negative"] else []) ++
    (if ¬ (0 ≤ d.availability_365 ∧ d.availability_365 ≤ 365) then
        ["availability_365 must be between 0 and 365"] else []) ++
    (if d.number_of_reviews < 0 then
        ["number_of_reviews must be non-negative"] else []) ++
    (if d.calculated_host_listings_count < 0 then
        ["calculated_host_listings_count must be non-negative"] else []) ++
    (if d.neighbourhood_group ∉ valid_borough then
        ["neighbourhood_group must be one of the five boroughs"] else []) ++
    (if d.room_type ∉ valid_room_types then
        ["room_type must be one of the valid room types"] else [])
  (errors.isEmpty, errors)

/-- The responses of the `/predict` handler. -/
inductive HttpResponse where
  | serviceUnavailable
  | badRequest (errs : List String)
  | serverError (details : String)
  | okResp (r : PredResult)
  deriving Repr

/-- `predict_price` (deploy.py lines 327–386): model-loaded check,
input validation (400 before the predictor is ever invoked), then the
predictor; a `None` price maps to 500, otherwise 200. -/
def predict_price (p : Option (RawInput → PredResult)) (d : RawInput) :
    HttpResponse :=
  match p with
  | none => .serviceUnavailable
  | some pr =>
    let vr := validate_prediction_input d
    if vr.1 then
      let r := pr d
      match r.predicted_priceO with
      | none => .serverError ((r.errorO).getD "Unknown error")
      | some _ => .okResp r
    else .badRequest vr.2

/-! ### Shared concrete data -/

/-- The example request of spec §8 and of the script's `__main__` demo:
the spec's scenario lists `month: 7` and leaves `day`, `year`,
`is_weekend` to their defaults. -/
def example_input : RawInput :=
  { neighbourhood_group := "Manhattan"
    neighbourhood := "Upper East Side"
    room_type := "Entire home/apt"
    latitude := 407736 / 10000
    longitude := -739566 / 10000
    minimum_nights := 2
    availability_365 := 180
    number_of_reviews := 50
    calculated_host_listings_count := 3
    reviews_per_month := some (5 / 2)
    day := none
    month := some 7
    year := none
    is_weekend := none }

/-- `example_input` after `_validate_input`'s `setdefault`s. -/
def example_validated : ValidatedInput :=
  { neighbourhood_group := "Manhattan"
    neighbourhood := "Upper East Side"
    room_type := "Entire home/apt"
    latitude := 407736 / 10000
    longitude := -739566 / 10000
    minimum_nights := 2
    availability_365 := 180
    number_of_reviews := 50
    calculated_host_listings_count := 3
    reviews_per_month := 5 / 2
    day := 15
    month := 7
    year := 2024
    is_weekend := 0 }

/-- A bundle in single-model mode (no classical regressors, no
weights) whose network model returns the out-of-range estimate 50000,
with an empty feature schema and identity scaler. -/
def single50k_bundle : Bundle :=
  { neural_network := some (fun _ => 50000)
    rf_model := none
    gb_model := none
    ridge_model := none
    scaler := some (fun v => v)
    label_encoders := []
    all_features := []
    categorical_features := []
    numerical_features := []
    binary_features := []
    ensemble_weights := none
    model_version := "enhanced_v2" }

/-! ### Supporting lemmas -/

theorem example_input_validates :
    validate_input example_input = .ok example_validated := by
  norm_num [validate_input, example_input, example_validated]

theorem validate_input_bad_lat {x : RawInput}
    (h : x.latitude < -90 ∨ 90 < x.latitude) :
    validate_input x = .error ("Invalid latitude: " ++ toString x.latitude) := by
  unfold validate_input
  rw [if_pos]
  rw [not_and_or, not_le, not_le]
  exact h

theorem validate_input_bad_lon {x : RawInput}
    (hlat : ¬ (x.latitude < -90 ∨ 90 < x.latitude))
    (h : x.longitude < -180 ∨ 180 < x.longitude) :
    validate_input x = .error ("Invalid longitude: " ++ toString x.longitude) := by
  unfold validate_input
  rw [if_neg, if_pos]
  · rw [not_and_or, not_le, not_le]
    exact h
  · rw [not_and_or, not_le, not_le]
    exact hlat

/-! ### Claim C3 -/

/-- C3: an input whose latitude lies outside [-90, 90] or whose
longitude lies outside [-180, 180] makes `predict` return the error
dictionary — price `None`, the message naming the violated field
(latitude being checked first) — with the predictor's state untouched;
the result is a constant in the models, the scaler and the encoders, so
no feature engineering or model invocation can have influenced it. -/
theorem invalid_latlon_yields_error (b : Bundle) (x : RawInput)
    (hbad : x.latitude < -90 ∨ 90 < x.latitude ∨
            x.longitude < -180 ∨ 180 < x.longitude) :
    predict b x =
      (.err ⟨if x.latitude < -90 ∨ 90 < x.latitude then
               "Invalid latitude: " ++ toString x.latitude
             else "Invalid longitude: " ++ toString x.longitude,
             b.model_version⟩, b.label_encoders) ∧
    (predict b x).1.predicted_priceO = none := by
  by_cases hlat : x.latitude < -90 ∨ 90 < x.latitude
  · have hv := validate_input_bad_lat hlat
    refine ⟨?_, ?_⟩ <;> simp [predict, hv, hlat, PredResult.predicted_priceO]
  · have hlon : x.longitude < -180 ∨ 180 < x.longitude := by tauto
    have hv := validate_input_bad_lon hlat hlon
    refine ⟨?_, ?_⟩ <;> simp [predict, hv, hlat, PredResult.predicted_priceO]

/-- Witness for C3 at latitude 200. -/
theorem invalid_latlon_yields_error_witness :
    predict single50k_bundle { example_input with latitude := 200 } =
      (.err ⟨"Invalid latitude: 200", "enhanced_v2"⟩, []) ∧
    (predict single50k_bundle
        { example_input with latitude := 200 }).1.predicted_priceO = none := by
  have h := invalid_latlon_yields_error single50k_bundle
    { example_input with latitude := 200 } (by norm_num [example_input])
  simpa [example_input, single50k_bundle] using h

/-! ### Claim C1 -/

theorem run_models_ensemble (b : Bundle) (v : List ℚ)
    {fnn frf fgb fr : List ℚ → ℚ} {w0 w1 w2 w3 : ℚ}
    (hnn : b.neural_network = some fnn) (hrf : b.rf_model = some frf)
    (hgb : b.gb_model = some fgb) (hr : b.ridge_model = some fr)
    (hw : b.ensemble_weights = some [w0, w1, w2, w3]) :
    run_models b v =
      [("neural_network", fnn v), ("random_forest", frf v),
       ("gradient_boosting", fgb v), ("ridge", fr v),
       ("ensemble", w0 * fnn v + w1 * frf v + w2 * fgb v + w3 * fr v)] := by
  simp [run_models, is_ensemble, hnn, hrf, hgb, hr, hw, zip_sum, getCol]
  ring

/-- C1: with all three classical regressors and the blend weights
loaded, the value recorded under the `'ensemble'` key is exactly
`w0·nn + w1·rf + w2·gb + w3·ridge` over the ordered quadruple of model
outputs, with the weights used as stored — no renormalization and no
requirement that they sum to 1. -/
theorem ensemble_blend_is_weighted_sum (b : Bundle) (x : RawInput)
    (vd : ValidatedInput) (v : List ℚ)
    (fnn frf fgb fr : List ℚ → ℚ) (w0 w1 w2 w3 : ℚ)
    (hnn : b.neural_network = some fnn) (hrf : b.rf_model = some frf)
    (hgb : b.gb_model = some fgb) (hr : b.ridge_model = some fr)
    (hw : b.ensemble_weights = some [w0, w1, w2, w3])
    (hv : validate_input x = .ok vd)
    (hp : (preprocess_features b (engineer_features vd)).1 = .ok v) :
    (predict b x).1.lookup_individual "ensemble" =
      some (w0 * fnn v + w1 * frf v + w2 * fgb v + w3 * fr v) := by
  have hrm := run_models_ensemble b v hnn hrf hgb hr hw
  simp [predict, hv, hp, hrm, getCol, PredResult.lookup_individual,
    make_result, select_and_package]

/-- Witness for C1: weights `[1, 1, 1, 1]` (not summing to 1) and model
outputs 10/20/30/40 blend to 100, exhibiting the unnormalized sum. -/
theorem ensemble_blend_is_weighted_sum_witness :
    (predict
      { neural_network := some (fun _ => 10)
        rf_model := some (fun _ => 20)
        gb_model := some (fun _ => 30)
        ridge_model := some (fun _ => 40)
        scaler := some (fun v => v)
        label_encoders := []
        all_features := []
        categorical_features := []
        numerical_features := []
        binary_features := []
        ensemble_weights := some [1, 1, 1, 1]
        model_version := "enhanced_v2" } example_input).1.lookup_individual
      "ensemble" = some 100 := by
  have h := ensemble_blend_is_weighted_sum
    { neural_network := some (fun _ => 10)
      rf_model := some (fun _ => 20)
      gb_model := some (fun _ => 30)
      ridge_model := some (fun _ => 40)
      scaler := some (fun v => v)
      label_encoders := []
      all_features := []
      categorical_features := []
      numerical_features := []
      binary_features := []
      ensemble_weights := some [1, 1, 1, 1]
      model_version := "enhanced_v2" } example_input example_validated []
    (fun _ => 10) (fun _ => 20) (fun _ => 30) (fun _ => 40) 1 1 1 1
    rfl rfl rfl rfl rfl example_input_validates (by rfl)
  norm_num at h
  exact h

/-! ### Claim C5 -/

theorem run_models_single (b : Bundle) (v : List ℚ) {fnn : List ℚ → ℚ}
    (hnn : b.neural_network = some fnn)
    (hsng : b.rf_model = none ∨ b.gb_model = none ∨ b.ridge_model = none ∨
            b.ensemble_weights = none) :
    run_models b v = [("neural_network", fnn v)] := by
  have he : is_ensemble b = false := by
    rcases hsng with h | h | h | h <;> simp [is_ensemble, h]
  simp [run_models, he, hnn]

/-- C5 (amended): in single-model mode the `individual_predictions`
mapping is exactly the network entry — no `'ensemble'` key — and the
final price is the network estimate after the `[10, 10000]` clamp of
line 503 and the 2-decimal rounding of line 507 (so it equals the raw
network estimate only when that estimate is already in range and
2-decimal). -/
theorem single_model_no_ensemble_key (b : Bundle) (x : RawInput)
    (vd : ValidatedInput) (v : List ℚ) (fnn : List ℚ → ℚ)
    (hsng : b.rf_model = none ∨ b.gb_model = none ∨ b.ridge_model = none ∨
            b.ensemble_weights = none)
    (hnn : b.neural_network = some fnn)
    (hv : validate_input x = .ok vd)
    (hp : (preprocess_features b (engineer_features vd)).1 = .ok v) :
    (predict b x).1.lookup_individual "ensemble" = none ∧
    (predict b x).1.individualO = some [("neural_network", fnn v)] ∧
    (predict b x).1.predicted_priceO =
      some (round2 (max 10 (min 10000 (fnn v)))) ∧
    (predict b x).1.model_usedO = some "neural_network" := by
  have hrm := run_models_single b v hnn hsng
  refine ⟨?_, ?_, ?_, ?_⟩ <;>
    simp [predict, hv, hp, hrm, getCol, make_result, select_and_package,
      PredResult.lookup_individual, PredResult.individualO,
      PredResult.predicted_priceO, PredResult.model_usedO]

/-- Counterexample to C5 as stated: in single-model mode with the
network estimating 50000, the returned `predicted_price` is 10000 —
not the network estimate — because the clamp of line 503 intervenes
(the `'ensemble'` key is indeed absent). -/
theorem single_model_price_counterexample :
    (predict single50k_bundle example_input).1.lookup_individual
        "ensemble" = none ∧
    (predict single50k_bundle example_input).1.lookup_individual
        "neural_network" = some 50000 ∧
    (predict single50k_bundle example_input).1.predicted_priceO =
        some 10000 ∧
    (10000 : ℚ) ≠ 50000 := by
  have hrm := run_models_single single50k_bundle ([] : List ℚ)
    rfl (Or.inl rfl)
  have hpp : (preprocess_features single50k_bundle
      (engineer_features example_validated)).1 = .ok [] := by rfl
  have hr : round2 (max 10 (min 10000 (50000 : ℚ))) = 10000 := by
    norm_num [round2, bankers_round]
  refine ⟨?_, ?_, ?_, by norm_num⟩ <;>
    simp [predict, example_input_validates, hpp, hrm, select_and_package,
      getCol, make_result, hr, PredResult.lookup_individual,
      PredResult.predicted_priceO]

/-- Witness for C5's amended theorem at the concrete 50000 bundle. -/
theorem single_model_no_ensemble_key_witness :
    (predict single50k_bundle example_input).1.lookup_individual
        "ensemble" = none ∧
    (predict single50k_bundle example_input).1.individualO =
        some [("neural_network", 50000)] ∧
    (predict single50k_bundle example_input).1.predicted_priceO =
        some (round2 (max 10 (min 10000 (50000 : ℚ)))) ∧
    (predict single50k_bundle example_input).1.model_usedO =
        some "neural_network" := by
  exact single_model_no_ensemble_key single50k_bundle example_input
    example_validated [] (fun _ => 50000) (Or.inl rfl) rfl
    example_input_validates (by rfl)

/-! ### Claim C2 -/

theorem le_bankers_round {q : ℚ} {n : ℤ} (h : (n : ℚ) ≤ q) :
    n ≤ bankers_round q := by
  have h1 : n ≤ ⌊q⌋ := Int.le_floor.mpr h
  unfold bankers_round
  split_ifs <;> omega

theorem bankers_round_le {q : ℚ} {n : ℤ} (h : q ≤ (n : ℚ)) :
    bankers_round q ≤ n := by
  have hf : ⌊q⌋ ≤ n := by
    have := Int.floor_le_floor (α := ℚ) h
    rwa [Int.floor_intCast] at this
  have hstep : ¬ (q - ⌊q⌋ < 1 / 2) → ⌊q⌋ + 1 ≤ n := by
    intro hr
    push_neg at hr
    have hlt : (⌊q⌋ : ℚ) < q := by linarith
    have : ⌊q⌋ < n := by
      by_contra hc
      push_neg at hc
      have h2 : n = ⌊q⌋ := le_antisymm hc hf
      have h3 : (⌊q⌋ : ℚ) ≤ q := Int.floor_le q
      have h4 : q ≤ (⌊q⌋ : ℚ) := by rw [← h2]; exact h
      linarith
    omega
  unfold bankers_round
  split_ifs with h1 h2 h3
  · exact hf
  · exact hstep h1
  · exact hf
  · exact hstep h1

theorem round2_bounds {q : ℚ} (h1 : 10 ≤ q) (h2 : q ≤ 10000) :
    10 ≤ round2 q ∧ round2 q ≤ 10000 := by
  have hl : (1000 : ℤ) ≤ bankers_round (100 * q) :=
    le_bankers_round (by push_cast; linarith)
  have hu : bankers_round (100 * q) ≤ (1000000 : ℤ) :=
    bankers_round_le (by push_cast; linarith)
  have hl' : (1000 : ℚ) ≤ (bankers_round (100 * q) : ℚ) := by exact_mod_cast hl
  have hu' : ((bankers_round (100 * q) : ℚ)) ≤ 1000000 := by exact_mod_cast hu
  unfold round2
  constructor <;> linarith

/-- Every success dictionary produced by `predict` comes from
`make_result` applied to the predictions list, the selected estimate
and the selecting key. -/
theorem select_and_package_ok_shape {b : Bundle} {ps : List (String × ℚ)}
    {r : SuccessResult} (h : select_and_package b ps = .ok r) :
    ∃ fp used, getCol used ps = some fp ∧ r = make_result b ps fp used := by
  unfold select_and_package at h
  split at h
  · rename_i heq
    refine ⟨_, "ensemble", heq, ?_⟩
    simp only [PredResult.ok.injEq] at h
    exact h.symm
  · split at h
    · rename_i heq
      refine ⟨_, "neural_network", heq, ?_⟩
      simp only [PredResult.ok.injEq] at h
      exact h.symm
    · simp at h

theorem predict_ok_shape {b : Bundle} {x : RawInput} {r : SuccessResult}
    {E : Encoders} (h : predict b x = (.ok r, E)) :
    ∃ ps fp used, getCol used ps = some fp ∧ r = make_result b ps fp used := by
  unfold predict at h
  split at h
  · simp at h
  · split at h
    · simp at h
    · simp only [Prod.mk.injEq] at h
      obtain ⟨fp, used, hlk, hr⟩ := select_and_package_ok_shape h.1
      exact ⟨_, fp, used, hlk, hr⟩

/-- C2 (amended): the final estimate is clamped into `[10, 10000]`
(then rounded to 2 decimals) before being returned — so the price is
always in `[10, 10000]` and equals the clamp-then-round of the
selected model estimate — but the success dictionary's keys are
exactly the eight of lines 506–515 (plus `prediction_std` /
`prediction_range` when at least two estimates exist): no key records
whether clamping occurred. -/
theorem final_price_clamped_no_flag (b : Bundle) (x : RawInput)
    (r : SuccessResult) (E : Encoders) (h : predict b x = (.ok r, E)) :
    10 ≤ r.predicted_price ∧ r.predicted_price ≤ 10000 ∧
    r.predicted_price = round2 (max 10 (min 10000
      ((getCol r.model_used r.individual_predictions).getD 0))) ∧
    success_keys r =
      ["predicted_price", "model_used", "model_version",
       "individual_predictions", "confidence_level", "features_used",
       "input_validation", "warnings"] ++
      (if 1 < r.individual_predictions.length then
        ["prediction_std", "prediction_range"] else []) := by
  obtain ⟨ps, fp, used, hlk, rfl⟩ := predict_ok_shape h
  have hcl : 10 ≤ max 10 (min 10000 fp) ∧ max 10 (min 10000 fp) ≤ 10000 := by
    constructor
    · exact le_max_left _ _
    · exact max_le (by norm_num) (min_le_left _ _)
  have hb := round2_bounds hcl.1 hcl.2
  refine ⟨hb.1, hb.2, ?_, ?_⟩
  · simp [make_result, hlk]
  · by_cases hlen : 1 < ps.length <;>
      simp [make_result, success_keys, hlen]

/-- Counterexample to C2 as stated: at the synthetic 50000 estimate
the price is clamped to 10000, yet the returned dictionary carries
exactly the eight base keys — no bounds-clamped flag exists anywhere
in the result. -/
theorem clamp_flag_absent_counterexample :
    (predict single50k_bundle example_input).1.predicted_priceO =
        some 10000 ∧
    (predict single50k_bundle example_input).1.lookup_individual
        "neural_network" = some 50000 ∧
    ((predict single50k_bundle example_input).1.individualO.map
        (fun l => l.length)) = some 1 ∧
    ∀ r : SuccessResult,
      (predict single50k_bundle example_input).1 = .ok r →
      success_keys r =
        ["predicted_price", "model_used", "model_version",
         "individual_predictions", "confidence_level", "features_used",
         "input_validation", "warnings"] := by
  have hv := example_input_validates
  have hrm := run_models_single single50k_bundle ([] : List ℚ)
    rfl (Or.inl rfl)
  have hr : round2 (max 10 (min 10000 (50000 : ℚ))) = 10000 := by
    norm_num [round2, bankers_round]
  have hpp : (preprocess_features single50k_bundle
      (engineer_features example_validated)).1 = .ok [] := by rfl
  refine ⟨?_, ?_, ?_, ?_⟩ <;>
    simp [predict, hv, hpp, hrm, getCol, make_result, success_keys,
      select_and_package, PredResult.predicted_priceO,
      PredResult.lookup_individual, PredResult.individualO, hr]

/-- The success dictionary of the 50000-estimate run. -/
def single50k_result : SuccessResult :=
  { predicted_price := 10000
    model_used := "neural_network"
    model_version := "enhanced_v2"
    individual_predictions := [("neural_network", 50000)]
    confidence_level := "medium"
    features_used := 0
    input_validation := "passed"
    warnings := []
    prediction_var := none
    prediction_range := none }

theorem single50k_predicts :
    predict single50k_bundle example_input = (.ok single50k_result, []) := by
  have hrm := run_models_single single50k_bundle ([] : List ℚ)
    rfl (Or.inl rfl)
  have hpp : (preprocess_features single50k_bundle
      (engineer_features example_validated)).1 = .ok [] := by rfl
  have hE : (preprocess_features single50k_bundle
      (engineer_features example_validated)).2.2 = [] := by rfl
  have hr : round2 (max 10 (min 10000 (50000 : ℚ))) = 10000 := by
    norm_num [round2, bankers_round]
  simp only [predict, example_input_validates, hpp, hE]
  simp [select_and_package, hrm, getCol, make_result, single50k_result,
    hr,
    (show is_ensemble single50k_bundle = false from rfl),
    (show single50k_bundle.model_version = "enhanced_v2" from rfl),
    (show single50k_bundle.all_features = ([] : List String) from rfl)]

/-- Witness for C2's amended theorem at the 50000 bundle: the price is
in bounds, equals the clamp-then-round of the selected estimate, and
the key list carries no clamp flag. -/
theorem final_price_clamped_no_flag_witness :
    10 ≤ single50k_result.predicted_price ∧
    single50k_result.predicted_price ≤ 10000 ∧
    single50k_result.predicted_price = round2 (max 10 (min 10000
      ((getCol single50k_result.model_used
        single50k_result.individual_predictions).getD 0))) ∧
    success_keys single50k_result =
      ["predicted_price", "model_used", "model_version",
       "individual_predictions", "confidence_level", "features_used",
       "input_validation", "warnings"] ++
      (if 1 < single50k_result.individual_predictions.length then
        ["prediction_std", "prediction_range"] else []) :=
  final_price_clamped_no_flag single50k_bundle example_input
    single50k_result [] single50k_predicts

/-! ### Claim C8 -/

/-- An ensemble bundle whose weights put everything on the ridge
model, making the blended entry differ from three of the four
per-model estimates. -/
def ens_split_bundle : Bundle :=
  { neural_network := some (fun _ => 0)
    rf_model := some (fun _ => 0)
    gb_model := some (fun _ => 0)
    ridge_model := some (fun _ => 100)
    scaler := some (fun v => v)
    label_encoders := []
    all_features := []
    categorical_features := []
    numerical_features := []
    binary_features := []
    ensemble_weights := some [0, 0, 0, 1]
    model_version := "enhanced_v2" }

/-- The success dictionary `ens_split_bundle` produces on the example
input. -/
def ens_split_result : SuccessResult :=
  { predicted_price := 100
    model_used := "ensemble"
    model_version := "enhanced_v2"
    individual_predictions :=
      [("neural_network", 0), ("random_forest", 0),
       ("gradient_boosting", 0), ("ridge", 100), ("ensemble", 100)]
    confidence_level := "high"
    features_used := 0
    input_validation := "passed"
    warnings := []
    prediction_var := some 2400
    prediction_range := some (0, 100) }

theorem ens_split_bundle_predicts :
    predict ens_split_bundle example_input =
      (.ok ens_split_result, []) := by
  have hv := example_input_validates
  have hpp : (preprocess_features ens_split_bundle
      (engineer_features example_validated)).1 = .ok [] := by rfl
  have hE : (preprocess_features ens_split_bundle
      (engineer_features example_validated)).2.2 = [] := by rfl
  have hrm := run_models_ensemble ens_split_bundle ([] : List ℚ)
    rfl rfl rfl rfl rfl
  norm_num at hrm
  have hround : round2 (max 10 (min 10000 (100 : ℚ))) = 100 := by
    norm_num [round2, bankers_round]
  have hvar : pop_var [(0 : ℚ), 0, 0, 100, 100] = 2400 := by
    norm_num [pop_var]
  have hmin : round2 (list_min [(0 : ℚ), 0, 0, 100, 100]) = 0 := by
    norm_num [list_min, round2, bankers_round]
  have hmax : round2 (list_max [(0 : ℚ), 0, 0, 100, 100]) = 100 := by
    norm_num [list_max, round2, bankers_round]
  simp only [predict, hv, hpp, hE]
  simp [select_and_package, hrm, getCol, make_result, ens_split_result,
    zip_sum, hround, hvar, hmin, hmax,
    (show is_ensemble ens_split_bundle = true from rfl),
    (show ens_split_bundle.model_version = "enhanced_v2" from rfl),
    (show ens_split_bundle.all_features = ([] : List String) from rfl)]

/-- C8 (amended): `prediction_std` and `prediction_range` are computed
over the values of the `individual_predictions` mapping — which, in
ensemble mode, contains the blended `'ensemble'` entry in addition to
the per-model estimates — with the std reported through its square
(`pop_var`, see its doc) and the range rounded to 2 decimals; both
fields are absent exactly when the mapping has at most one entry. -/
theorem prediction_std_range_of_mapping (b : Bundle) (x : RawInput)
    (r : SuccessResult) (E : Encoders) (h : predict b x = (.ok r, E)) :
    (1 < r.individual_predictions.length →
      r.prediction_var =
        some (pop_var (r.individual_predictions.map Prod.snd)) ∧
      r.prediction_range =
        some (round2 (list_min (r.individual_predictions.map Prod.snd)),
              round2 (list_max (r.individual_predictions.map Prod.snd)))) ∧
    (¬ 1 < r.individual_predictions.length →
      r.prediction_var = none ∧ r.prediction_range = none) := by
  obtain ⟨ps, fp, used, hlk, rfl⟩ := predict_ok_shape h
  by_cases hlen : 1 < ps.length <;>
    constructor <;> intro hlen' <;> simp [make_result, hlen] at hlen' ⊢

/-- Counterexample to C8 as stated: the recorded dispersion is taken
over the five mapping values `0, 0, 0, 100, 100` — ensemble entry
included — giving variance 2400 (std ≈ 48.99), whereas the four
individual per-model estimates `0, 0, 0, 100` have variance 1875
(std ≈ 43.30); the two disagree. -/
theorem prediction_std_includes_ensemble_counterexample :
    (predict ens_split_bundle example_input).1.individualO =
      some [("neural_network", (0 : ℚ)), ("random_forest", 0),
            ("gradient_boosting", 0), ("ridge", 100), ("ensemble", 100)] ∧
    (predict ens_split_bundle example_input).1 = .ok ens_split_result ∧
    ens_split_result.prediction_var = some 2400 ∧
    pop_var [(0 : ℚ), 0, 0, 100] = 1875 ∧
    (2400 : ℚ) ≠ 1875 := by
  have hp := ens_split_bundle_predicts
  refine ⟨?_, ?_, by norm_num [ens_split_result], ?_, by norm_num⟩
  · rw [show (predict ens_split_bundle example_input).1 =
        .ok ens_split_result from by rw [hp]]
    simp [PredResult.individualO, ens_split_result]
  · rw [hp]
  · norm_num [pop_var]

/-- Witness for C8's amended theorem at the concrete ensemble run. -/
theorem prediction_std_range_of_mapping_witness :
    ens_split_result.prediction_var =
      some (pop_var (ens_split_result.individual_predictions.map Prod.snd)) ∧
    ens_split_result.prediction_range =
      some (round2 (list_min
              (ens_split_result.individual_predictions.map Prod.snd)),
            round2 (list_max
              (ens_split_result.individual_predictions.map Prod.snd))) := by
  have h := prediction_std_range_of_mapping ens_split_bundle example_input
    ens_split_result [] ens_split_bundle_predicts
  exact h.1 (by norm_num [ens_split_result])

/-! ### Claim C4 -/

/-- Counterexample to C4 as stated: on the spec's example input the
Feature Engineer produces `host_activity_level = "Casual"` (count 3
falls in the 2–3 bucket, per the very mapping of lines 266–273 and the
spec's own bucket rule), not `"Active"`; and the squared distance to
the reference point is exactly 0.00102834, which exceeds `0.0234²`, so
the distance exceeds 0.0234 and is nowhere near 0.0184. -/
theorem example_scenario_counterexample :
    validate_input example_input = .ok example_validated ∧
    getCol "host_activity_level" (engineer_features example_validated) =
      some (.str "Casual") ∧
    "Casual" ≠ "Active" ∧
    getCol "distance_to_manhattan" (engineer_features example_validated) =
      some (.num (102834 / 100000000)) ∧
    ((234 : ℚ) / 10000) ^ 2 < 102834 / 100000000 := by
  refine ⟨example_input_validates, ?_, by decide, ?_, by norm_num⟩ <;>
    (simp [engineer_features, getCol, example_validated, host_activity_of]
     norm_num [manhattan_center_lat, manhattan_center_lon])

/-- C4 (amended): on the spec's example input the Feature Engineer
produces `distance_to_reference ≈ 0.0321` (squared distance exactly
0.00102834, bracketed between `0.0320²` and `0.0321²`),
`is_super_host = 0` (false), `host_activity_level = "Casual"`,
`season = "Summer"`, `is_peak_season = 1` (true) and
`availability_category = "Seasonal"`. -/
theorem example_scenario_values :
    validate_input example_input = .ok example_validated ∧
    getCol "distance_to_manhattan" (engineer_features example_validated) =
      some (.num (102834 / 100000000)) ∧
    ((320 : ℚ) / 10000) ^ 2 < 102834 / 100000000 ∧
    (102834 : ℚ) / 100000000 < ((321 : ℚ) / 10000) ^ 2 ∧
    getCol "is_super_host" (engineer_features example_validated) =
      some (.num 0) ∧
    getCol "host_activity_level" (engineer_features example_validated) =
      some (.str "Casual") ∧
    getCol "season" (engineer_features example_validated) =
      some (.str "Summer") ∧
    getCol "is_peak_season" (engineer_features example_validated) =
      some (.num 1) ∧
    getCol "availability_category" (engineer_features example_validated) =
      some (.str "Seasonal") := by
  refine ⟨example_input_validates, ?_, by norm_num, by norm_num,
    ?_, ?_, ?_, ?_, ?_⟩ <;>
    (simp [engineer_features, getCol, example_validated,
       host_activity_of, season_of, categorize_availability]
     <;> norm_num [manhattan_center_lat, manhattan_center_lon])

/-! ### Claim C10 -/

theorem validate_input_ok_fields {x : RawInput} {vd : ValidatedInput}
    (h : validate_input x = .ok vd) :
    vd = { neighbourhood_group := x.neighbourhood_group
           neighbourhood := x.neighbourhood
           room_type := x.room_type
           latitude := x.latitude
           longitude := x.longitude
           minimum_nights := x.minimum_nights
           availability_365 := x.availability_365
           number_of_reviews := x.number_of_reviews
           calculated_host_listings_count := x.calculated_host_listings_count
           reviews_per_month := x.reviews_per_month.getD 0
           day := x.day.getD 15
           month := x.month.getD 6
           year := x.year.getD 2024
           is_weekend := x.is_weekend.getD 0 } := by
  unfold validate_input at h
  split_ifs at h
  simp only [Except.ok.injEq] at h
  exact h.symm

/-- C10: the façade's `validate_prediction_input` accepts a record only
if `neighbourhood_group` lies in the five-borough list and `room_type`
in the three-type list, and on an accepted record the borough is a key
of both fixed lookup tables — so the engineered `neighbourhood_avg_price`
and `neighbourhood_density` take table values, never the `fillna`
defaults 100/2000; a rejected record draws a `400 Bad Request`
whose content is independent of the predictor, which is never
invoked. -/
theorem facade_validation_restricts_categories (d : RawInput) :
    ((validate_prediction_input d).1 = true →
      d.neighbourhood_group ∈ valid_borough ∧
      d.room_type ∈ valid_room_types ∧
      (getCol d.neighbourhood_group nyc_avg_prices).isSome ∧
      (getCol d.neighbourhood_group nyc_densities).isSome ∧
      ∀ vd : ValidatedInput, validate_input d = .ok vd →
        getCol "neighbourhood_avg_price" (engineer_features vd) =
          some (.num ((getCol d.neighbourhood_group nyc_avg_prices).getD 100)) ∧
        getCol "neighbourhood_density" (engineer_features vd) =
          some (.num ((getCol d.neighbourhood_group nyc_densities).getD 2000))) ∧
    ((validate_prediction_input d).1 = false →
      ∀ p₁ p₂ : RawInput → PredResult,
        predict_price (some p₁) d = predict_price (some p₂) d ∧
        predict_price (some p₁) d =
          .badRequest (validate_prediction_input d).2) := by
  constructor
  · intro h
    simp only [validate_prediction_input, List.isEmpty_iff,
      List.append_eq_nil] at h
    have hng : d.neighbourhood_group ∈ valid_borough := by
      by_contra hc
      simp [hc] at h
    have hrt : d.room_type ∈ valid_room_types := by
      by_contra hc
      simp [hc] at h
    have havg : (getCol d.neighbourhood_group nyc_avg_prices).isSome := by
      simp only [valid_borough, List.mem_cons, List.not_mem_nil,
        or_false] at hng
      rcases hng with h' | h' | h' | h' | h' <;>
        simp [h', nyc_avg_prices, getCol]
    have hden : (getCol d.neighbourhood_group nyc_densities).isSome := by
      simp only [valid_borough, List.mem_cons, List.not_mem_nil,
        or_false] at hng
      rcases hng with h' | h' | h' | h' | h' <;>
        simp [h', nyc_densities, getCol]
    refine ⟨hng, hrt, havg, hden, ?_⟩
    intro vd hvd
    rw [validate_input_ok_fields hvd]
    constructor <;> simp [engineer_features, getCol]
  · intro h p₁ p₂
    constructor <;> simp [predict_price, h]

/-- Witness for C10: the example record is accepted (borough and room
type in range, both tables hit), while changing the room type to
`"Loft"` draws a predictor-independent `400`. -/
theorem facade_validation_restricts_categories_witness :
    example_input.neighbourhood_group ∈ valid_borough ∧
    example_input.room_type ∈ valid_room_types ∧
    (getCol example_input.neighbourhood_group nyc_avg_prices).isSome ∧
    (getCol example_input.neighbourhood_group nyc_densities).isSome ∧
    predict_price (some (fun _ => .err ⟨"a", "v1"⟩))
        { example_input with room_type := "Loft" } =
      predict_price (some (fun _ => .err ⟨"b", "v2"⟩))
        { example_input with room_type := "Loft" } := by
  have hval : (validate_prediction_input example_input).1 = true := by
    simp [validate_prediction_input, example_input, valid_borough,
      valid_room_types]
    norm_num
  have hinv : (validate_prediction_input
      { example_input with room_type := "Loft" }).1 = false := by
    simp [validate_prediction_input, example_input, valid_borough,
      valid_room_types]
  have h1 := (facade_validation_restricts_categories example_input).1 hval
  have h2 := ((facade_validation_restricts_categories
      { example_input with room_type := "Loft" }).2 hinv
      (fun _ => .err ⟨"a", "v1"⟩) (fun _ => .err ⟨"b", "v2"⟩)).1
  exact ⟨h1.1, h1.2.1, h1.2.2.1, h1.2.2.2.1, h2⟩

/-! ### Claim C7 -/

theorem getCol_map_pair_isSome (g : String → FValue) (l : List String)
    (k : String) :
    (getCol k (l.map (fun f => (f, g f)))).isSome = true ↔ k ∈ l := by
  induction l with
  | nil => simp [getCol]
  | cons f t ih =>
    by_cases h : f = k
    · subst h
      simp [getCol]
    · simp [getCol, h, ih, Ne.symm h]

theorem getCol_select_isSome (b : Bundle) (filled : List (String × FValue))
    (k : String) :
    (getCol k (select_features b filled)).isSome = true ↔
      k ∈ b.all_features := by
  unfold select_features
  exact getCol_map_pair_isSome _ _ k

theorem apply_encoders_cons (E : Encoders) (cv : List (String × FValue))
    (ws : List Warn) (f : String) (t : List String) :
    apply_encoders E cv ws (f :: t) =
      apply_encoders (apply_enc_step E cv ws f).1
        (apply_enc_step E cv ws f).2.1 (apply_enc_step E cv ws f).2.2 t := rfl

theorem apply_enc_step_enc_of_isSome (E : Encoders)
    (cv : List (String × FValue)) (ws : List Warn) (f : String)
    (h : (getCol f cv).isSome → (getCol f E).isSome) :
    (apply_enc_step E cv ws f).1 = E ∧
    ((apply_enc_step E cv ws f).2.1 = cv ∨
     ∃ u, (apply_enc_step E cv ws f).2.1 = setCol f u cv) := by
  unfold apply_enc_step
  split
  · exact ⟨rfl, Or.inl rfl⟩
  · rename_i v hcv
    split
    · split
      · exact ⟨rfl, Or.inr ⟨_, rfl⟩⟩
      · exact ⟨rfl, Or.inr ⟨_, rfl⟩⟩
    · rename_i hnone
      have := h (by rw [hcv]; rfl)
      rw [hnone] at this
      simp at this

/-- When every listed categorical feature that has a column also has a
stored encoder, the loop of lines 402–418 performs no mutation. -/
theorem apply_encoders_enc_eq {E : Encoders} {cv : List (String × FValue)}
    (ws : List Warn) {fs : List String}
    (h : ∀ f ∈ fs, (getCol f cv).isSome → (getCol f E).isSome) :
    (apply_encoders E cv ws fs).1 = E := by
  induction fs generalizing cv ws with
  | nil => rfl
  | cons f t ih =>
    have hstep := apply_enc_step_enc_of_isSome E cv ws f
      (h f (List.mem_cons_self f t))
    rw [apply_encoders_cons, hstep.1]
    rcases hstep.2 with hc | ⟨u, hc⟩ <;> rw [hc]
    · exact ih _ (fun g hg => h g (List.mem_cons_of_mem f hg))
    · exact ih _ (fun g hg hsome => h g (List.mem_cons_of_mem f hg)
        (by rwa [getCol_setCol_isSome] at hsome))

theorem preprocess_enc_eq {b : Bundle} {cols : List (String × FValue)}
    (henc : ∀ f ∈ b.categorical_features, f ∈ b.all_features →
            (getCol f b.label_encoders).isSome) :
    (preprocess_features b cols).2.2 = b.label_encoders := by
  have hkey : ∀ f ∈ b.categorical_features,
      (getCol f (select_features b (fill_missing b cols).1)).isSome →
      (getCol f b.label_encoders).isSome := by
    intro f hf hsome
    exact henc f hf ((getCol_select_isSome b _ f).mp hsome)
  have := apply_encoders_enc_eq [] hkey
  unfold preprocess_features
  split <;> simpa [encoded_state] using this

/-- C7 (amended): when every categorical feature listed in the schema
has a stored encoder, a `predict` call leaves `label_encoders` — the
only mutable part of the loaded artifact state — unchanged, so two
sequential calls see identical artifacts; absent an encoder, the call
installs a freshly fitted one (see the counterexample). -/
theorem predictor_state_unchanged_with_encoders (b : Bundle) (x : RawInput)
    (henc : ∀ f ∈ b.categorical_features, f ∈ b.all_features →
            (getCol f b.label_encoders).isSome) :
    (predict b x).2 = b.label_encoders := by
  unfold predict
  split
  · rfl
  · split <;> exact preprocess_enc_eq henc

/-- A loaded state whose schema has one categorical feature with no
stored encoder. -/
def mut_bundle : Bundle :=
  { neural_network := some (fun _ => 150)
    rf_model := none
    gb_model := none
    ridge_model := none
    scaler := some (fun v => v)
    label_encoders := []
    all_features := ["neighbourhood_group"]
    categorical_features := ["neighbourhood_group"]
    numerical_features := []
    binary_features := []
    ensemble_weights := none
    model_version := "enhanced_v2" }

/-- Counterexample to C7 as stated: a prediction against `mut_bundle`
mutates the predictor's state — `_preprocess_features` installs a
fallback encoder for `neighbourhood_group` (line 418), fitted on the
request's own value — while still returning a successful price. -/
theorem predictor_state_mutation_counterexample :
    mut_bundle.label_encoders = [] ∧
    (predict mut_bundle example_input).2 =
      [("neighbourhood_group", ["Manhattan"])] ∧
    (predict mut_bundle example_input).1.predicted_priceO = some 150 := by
  have hpre : preprocess_features mut_bundle
      (engineer_features example_validated) =
      (.ok [0], [.noEncoder "neighbourhood_group"],
       [("neighbourhood_group", ["Manhattan"])]) := by rfl
  have hrm := run_models_single mut_bundle [(0 : ℚ)]
    rfl (Or.inl rfl)
  have hround : round2 (max 10 (min 10000 (150 : ℚ))) = 150 := by
    norm_num [round2, bankers_round]
  refine ⟨rfl, ?_, ?_⟩ <;>
    simp [predict, example_input_validates, hpre, hrm,
      select_and_package, getCol, make_result, hround,
      PredResult.predicted_priceO]

/-- Witness for C7's amended theorem: with the encoder present the
state is untouched. -/
theorem predictor_state_unchanged_witness :
    (predict { mut_bundle with
        label_encoders := [("neighbourhood_group", ["Manhattan", "Brooklyn"])] }
      example_input).2 =
      [("neighbourhood_group", ["Manhattan", "Brooklyn"])] := by
  exact predictor_state_unchanged_with_encoders _ example_input (by decide)

/-! ### Claim C9 -/

theorem getCol_map_pair_of_mem (g : String → FValue) {l : List String}
    {k : String} (h : k ∈ l) :
    getCol k (l.map (fun f => (f, g f))) = some (g k) := by
  induction l with
  | nil => cases h
  | cons f t ih =>
    by_cases hf : f = k
    · subst hf
      simp [getCol]
    · rcases List.mem_cons.mp h with h' | h'
      · exact absurd h'.symm hf
      · simp [getCol, hf, ih h']

/-- The columns after one loop iteration: untouched, or the one column
`f` overwritten. -/
theorem apply_enc_step_col_cases (E : Encoders) (cv : List (String × FValue))
    (ws : List Warn) (f : String) :
    (apply_enc_step E cv ws f).2.1 = cv ∨
    ∃ u, (apply_enc_step E cv ws f).2.1 = setCol f u cv := by
  unfold apply_enc_step
  split
  · exact Or.inl rfl
  · split
    · split
      · exact Or.inr ⟨_, rfl⟩
      · exact Or.inr ⟨_, rfl⟩
    · exact Or.inr ⟨_, rfl⟩

/-- The encoder map after one loop iteration: untouched, or one fresh
single-class entry appended for `f`. -/
theorem apply_enc_step_enc_cases (E : Encoders) (cv : List (String × FValue))
    (ws : List Warn) (f : String) :
    (apply_enc_step E cv ws f).1 = E ∨
    ∃ c, (apply_enc_step E cv ws f).1 = E ++ [(f, c)] := by
  unfold apply_enc_step
  split
  · exact Or.inl rfl
  · split
    · split
      · exact Or.inl rfl
      · exact Or.inl rfl
    · exact Or.inr ⟨_, rfl⟩

/-- The warning log after one loop iteration: zero or one entry
appended. -/
theorem apply_enc_step_warn_cases (E : Encoders) (cv : List (String × FValue))
    (ws : List Warn) (f : String) :
    (apply_enc_step E cv ws f).2.2 = ws ∨
    ∃ w, (apply_enc_step E cv ws f).2.2 = ws ++ [w] := by
  unfold apply_enc_step
  split
  · exact Or.inl rfl
  · split
    · split
      · exact Or.inl rfl
      · exact Or.inr ⟨_, rfl⟩
    · exact Or.inr ⟨_, rfl⟩

/-- The loop only appends to the warning log. -/
theorem apply_encoders_warn_mono (E : Encoders) (cv : List (String × FValue))
    (ws : List Warn) (fs : List String) :
    ∃ ext, (apply_encoders E cv ws fs).2.2 = ws ++ ext := by
  induction fs generalizing E cv ws with
  | nil => exact ⟨[], by simp [apply_encoders]⟩
  | cons f t ih =>
    rw [apply_encoders_cons]
    obtain ⟨ext, hext⟩ := ih (apply_enc_step E cv ws f).1
      (apply_enc_step E cv ws f).2.1 (apply_enc_step E cv ws f).2.2
    rcases apply_enc_step_warn_cases E cv ws f with hw | ⟨w, hw⟩
    · exact ⟨ext, by rw [hext, hw]⟩
    · exact ⟨w :: ext, by rw [hext, hw, List.append_assoc]; rfl⟩

/-- A column whose name the loop never visits is left unchanged. -/
theorem apply_encoders_col_not_mem {f : String} {fs : List String}
    (E : Encoders) (cv : List (String × FValue)) (ws : List Warn)
    (h : f ∉ fs) :
    getCol f (apply_encoders E cv ws fs).2.1 = getCol f cv := by
  induction fs generalizing E cv ws with
  | nil => rfl
  | cons g t ih =>
    rw [apply_encoders_cons]
    have hg : f ≠ g := fun hc => h (hc ▸ List.mem_cons_self g t)
    have ht : f ∉ t := fun hc => h (List.mem_cons_of_mem g hc)
    rw [ih _ _ _ ht]
    rcases apply_enc_step_col_cases E cv ws g with hc | ⟨u, hc⟩
    · rw [hc]
    · rw [hc, getCol_setCol_ne u cv hg]

/-- One loop iteration hitting a stored encoder on an unseen label:
the column becomes 0 and a warning is appended. -/
theorem apply_enc_step_unseen {E : Encoders} {cv : List (String × FValue)}
    {ws : List Warn} {f : String} {classes : List String} {s : String}
    (hval : getCol f cv = some (.str s))
    (hcl : getCol f E = some classes)
    (hunseen : idxOf s classes = none) :
    apply_enc_step E cv ws f =
      (E, setCol f (.num 0) cv, ws ++ [.unseenCategory f]) := by
  unfold apply_enc_step
  rw [hval, hcl]
  simp [encode_value, hunseen]

/-- Through the whole loop (visiting each feature once): an unseen
label is encoded to 0 and logged. -/
theorem apply_encoders_unseen {E : Encoders} {cv : List (String × FValue)}
    (ws : List Warn) {fs : List String} {f : String}
    {classes : List String} {s : String}
    (hnd : fs.Nodup) (hf : f ∈ fs)
    (hcl : getCol f E = some classes)
    (hval : getCol f cv = some (.str s))
    (hunseen : idxOf s classes = none) :
    getCol f (apply_encoders E cv ws fs).2.1 = some (.num 0) ∧
    Warn.unseenCategory f ∈ (apply_encoders E cv ws fs).2.2 := by
  induction fs generalizing E cv ws with
  | nil => cases hf
  | cons g t ih =>
    rw [apply_encoders_cons]
    by_cases hgf : g = f
    · subst hgf
      have hft : g ∉ t := (List.nodup_cons.mp hnd).1
      rw [apply_enc_step_unseen hval hcl hunseen]
      constructor
      · rw [apply_encoders_col_not_mem _ _ _ hft,
          getCol_setCol_self_of_isSome _ _ (by rw [hval]; rfl)]
      · obtain ⟨ext, hext⟩ := apply_encoders_warn_mono E
          (setCol g (.num 0) cv) (ws ++ [.unseenCategory g]) t
        rw [hext]
        simp
    · have hft : f ∈ t := by
        rcases List.mem_cons.mp hf with h' | h'
        · exact absurd h'.symm hgf
        · exact h'
      have hcl' : getCol f (apply_enc_step E cv ws g).1 = some classes := by
        rcases apply_enc_step_enc_cases E cv ws g with hc | ⟨c, hc⟩
        · rw [hc, hcl]
        · rw [hc, getCol_append_of_isSome _ _ (by rw [hcl]; rfl), hcl]
      have hval' : getCol f (apply_enc_step E cv ws g).2.1 =
          some (.str s) := by
        rcases apply_enc_step_col_cases E cv ws g with hc | ⟨u, hc⟩
        · rw [hc, hval]
        · rw [hc, getCol_setCol_ne u cv (fun hc' => hgf hc'.symm), hval]
      exact ih _ (List.nodup_cons.mp hnd).2 hft hcl' hval'

/-- C9 (amended): the three degraded-feature events never raise and
substitute the documented defaults — a schema feature missing from the
engineered frame is filled with `'Unknown'`/0, an unseen category is
encoded to 0, an absent scaler falls back — and each event appends a
warning to the predictor's log; however these warnings never reach the
prediction response, whose `warnings` list is the constant `[]`. -/
theorem degraded_features_defaults_logged (b : Bundle)
    (cols : List (String × FValue)) :
    (∀ f ∈ b.all_features, getCol f cols = none →
      Warn.missingFeature f ∈ (preprocess_features b cols).2.1 ∧
      getCol f (fill_missing b cols).1 = some (default_fill b f)) ∧
    (b.categorical_features.Nodup →
     ∀ f classes s, f ∈ b.categorical_features →
      getCol f b.label_encoders = some classes →
      getCol f (select_features b (fill_missing b cols).1) =
        some (.str s) →
      idxOf s classes = none →
      getCol f (encoded_state b cols).2.1 = some (.num 0) ∧
      Warn.unseenCategory f ∈ (preprocess_features b cols).2.1) ∧
    (b.scaler = none → ∀ q, (preprocess_features b cols).1 = .ok q →
      Warn.noScaler ∈ (preprocess_features b cols).2.1) ∧
    (∀ x r E, predict b x = (.ok r, E) → r.warnings = []) := by
  refine ⟨?_, ?_, ?_, ?_⟩
  · intro f hf hnone
    have hmem : f ∈ b.all_features.filter
        (fun f => (getCol f cols).isNone) := by
      simp [List.mem_filter, hf, hnone]
    constructor
    · have hw : Warn.missingFeature f ∈ (fill_missing b cols).2 := by
        unfold fill_missing
        exact List.mem_map_of_mem Warn.missingFeature hmem
      unfold preprocess_features
      split
      · exact List.mem_append_left _ hw
      · exact List.mem_append_left _ (List.mem_append_left _ hw)
    · unfold fill_missing
      rw [getCol_append_of_none _ _ hnone]
      exact getCol_map_pair_of_mem _ hmem
  · intro hnd f classes s hf hcl hval hunseen
    have h := apply_encoders_unseen [] hnd hf hcl hval hunseen
    refine ⟨h.1, ?_⟩
    have hmem : Warn.unseenCategory f ∈ (encoded_state b cols).2.2 := h.2
    unfold preprocess_features
    split
    · exact List.mem_append_right _ hmem
    · exact List.mem_append_left _ (List.mem_append_right _ hmem)
  · intro hsc q hq
    unfold preprocess_features at hq ⊢
    split at hq
    · cases hq
    · simp [scale_features, hsc]
  · intro x r E h
    obtain ⟨ps, fp, used, _, rfl⟩ := predict_ok_shape h
    rfl

/-- A bundle exercising all three degraded-feature events at once: a
schema feature the engineer never produces, a `season` encoder that
has never seen `"Summer"`, and no scaler. -/
def degraded_bundle : Bundle :=
  { neural_network := some (fun _ => 150)
    rf_model := none
    gb_model := none
    ridge_model := none
    scaler := none
    label_encoders := [("season", ["Winter"])]
    all_features := ["mystery_feature", "season"]
    categorical_features := ["season"]
    numerical_features := []
    binary_features := []
    ensemble_weights := none
    model_version := "enhanced_v2" }

theorem degraded_bundle_preprocesses :
    preprocess_features degraded_bundle
      (engineer_features example_validated) =
      (.ok [0, 0],
       [.missingFeature "mystery_feature", .unseenCategory "season",
        .noScaler],
       [("season", ["Winter"])]) := by rfl

/-- The success dictionary of the degraded run. -/
def degraded_result : SuccessResult :=
  { predicted_price := 150
    model_used := "neural_network"
    model_version := "enhanced_v2"
    individual_predictions := [("neural_network", 150)]
    confidence_level := "medium"
    features_used := 2
    input_validation := "passed"
    warnings := []
    prediction_var := none
    prediction_range := none }

theorem degraded_bundle_predicts :
    predict degraded_bundle example_input =
      (.ok degraded_result, [("season", ["Winter"])]) := by
  have hrm := run_models_single degraded_bundle [(0 : ℚ), 0]
    rfl (Or.inl rfl)
  have hround : round2 (max 10 (min 10000 (150 : ℚ))) = 150 := by
    norm_num [round2, bankers_round]
  simp only [predict, example_input_validates, degraded_bundle_preprocesses]
  simp [select_and_package, hrm, getCol, make_result, degraded_result,
    hround,
    (show is_ensemble degraded_bundle = false from rfl),
    (show degraded_bundle.model_version = "enhanced_v2" from rfl),
    (show degraded_bundle.all_features =
      ["mystery_feature", "season"] from rfl)]

/-- Counterexample to C9 as stated: the degraded run logs all three
warnings (missing feature, unseen category, no scaler) and still
succeeds — but the prediction response's `warnings` metadata is the
empty list, so none of them is visible to the caller. -/
theorem warnings_not_in_response_counterexample :
    (preprocess_features degraded_bundle
        (engineer_features example_validated)).2.1 =
      [.missingFeature "mystery_feature", .unseenCategory "season",
       .noScaler] ∧
    (predict degraded_bundle example_input).1.predicted_priceO =
      some 150 ∧
    (predict degraded_bundle example_input).1.warningsO = some [] := by
  refine ⟨by rw [degraded_bundle_preprocesses], ?_, ?_⟩ <;>
    rw [show (predict degraded_bundle example_input).1 =
        .ok degraded_result from by rw [degraded_bundle_predicts]] <;>
    rfl

/-- Witness for C9's amended theorem on the degraded run. -/
theorem degraded_features_defaults_logged_witness :
    (Warn.missingFeature "mystery_feature" ∈
       (preprocess_features degraded_bundle
         (engineer_features example_validated)).2.1 ∧
     getCol "mystery_feature"
       (fill_missing degraded_bundle
         (engineer_features example_validated)).1 =
       some (default_fill degraded_bundle "mystery_feature")) ∧
    (getCol "season"
       (encoded_state degraded_bundle
         (engineer_features example_validated)).2.1 =
       some (.num 0) ∧
     Warn.unseenCategory "season" ∈
       (preprocess_features degraded_bundle
         (engineer_features example_validated)).2.1) ∧
    Warn.noScaler ∈
      (preprocess_features degraded_bundle
        (engineer_features example_validated)).2.1 ∧
    degraded_result.warnings = [] := by
  have h := degraded_features_defaults_logged degraded_bundle
    (engineer_features example_validated)
  refine ⟨h.1 "mystery_feature" (by decide) (by rfl), ?_, ?_, ?_⟩
  · exact h.2.1 (by decide) "season" ["Winter"] "Summer" (by decide)
      (by rfl) (by rfl) (by rfl)
  · exact h.2.2.1 rfl [0, 0] (by rw [degraded_bundle_preprocesses])
  · exact h.2.2.2 example_input degraded_result [("season", ["Winter"])]
      degraded_bundle_predicts

/-! ### Claim C6

The batch loop threads `self.label_encoders` through the items, and a
fallback encoder installed by one item is visible to the next
(lines 402–418).  The lemmas below show this mutation can never change
a later item's *result*: an installed fallback encoder is always a
fresh single-class entry, and encoding against a single-class encoder
yields 0 for every value — exactly what the fit-fresh path yields —
so the predictions are as if every item ran against the initial
state. -/

/-- An encoder-map lookup that is absent or a single-class entry:
encoding against it writes 0 whatever the value. -/
def sglOpt (o : Option (List String)) : Prop :=
  o = none ∨ ∃ s, o = some [s]

/-- Two encoder maps that agree except possibly at keys where both are
absent-or-singleton. -/
def EncR (E E' : Encoders) : Prop :=
  ∀ f, getCol f E = getCol f E' ∨
    (sglOpt (getCol f E) ∧ sglOpt (getCol f E'))

/-- `E` extends `E₀` only by fresh single-class entries. -/
def EncExt (E₀ E : Encoders) : Prop :=
  (∀ f, (getCol f E₀).isSome → getCol f E = getCol f E₀) ∧
  (∀ f, getCol f E₀ = none →
    getCol f E = none ∨ ∃ s, getCol f E = some [s])

theorem encExt_refl (E : Encoders) : EncExt E E :=
  ⟨fun _ _ => rfl, fun _ h => Or.inl h⟩

theorem encExt_encR {E₀ E : Encoders} (h : EncExt E₀ E) : EncR E₀ E := by
  intro f
  cases hf : getCol f E₀ with
  | none =>
    rcases h.2 f hf with h' | ⟨s, h'⟩
    · exact Or.inr ⟨Or.inl rfl, Or.inl h'⟩
    · exact Or.inr ⟨Or.inl rfl, Or.inr ⟨s, h'⟩⟩
  | some c => exact Or.inl (by rw [h.1 f (by rw [hf]; rfl), hf])

theorem getCol_append_single_ne {g f : String} (c : List String)
    (E : Encoders) (h : g ≠ f) :
    getCol g (E ++ [(f, c)]) = getCol g E := by
  cases hE : getCol g E with
  | none =>
    rw [getCol_append_of_none _ _ hE]
    simp [getCol, Ne.symm h]
  | some w =>
    rw [getCol_append_of_isSome _ _ (by rw [hE]; rfl)]
    exact hE

theorem getCol_append_single_self (f : String) (c : List String)
    {E : Encoders} (h : getCol f E = none) :
    getCol f (E ++ [(f, c)]) = some c := by
  rw [getCol_append_of_none _ _ h]; simp [getCol]

/-- Line 402's guard fails: the feature has no column; nothing
happens. -/
theorem apply_enc_step_no_col {E : Encoders} {cv : List (String × FValue)}
    {ws : List Warn} {f : String} (h : getCol f cv = none) :
    apply_enc_step E cv ws f = (E, cv, ws) := by
  unfold apply_enc_step
  rw [h]

/-- Lines 414–418: no stored encoder; fit a fresh single-class one on
the column value, mutating the encoder map. -/
theorem apply_enc_step_fit {E : Encoders} {cv : List (String × FValue)}
    {ws : List Warn} {f : String} {v : FValue}
    (hcv : getCol f cv = some v) (hnone : getCol f E = none) :
    apply_enc_step E cv ws f =
      (E ++ [(f, [fvalue_str v])], setCol f (.num 0) cv,
       ws ++ [.noEncoder f]) := by
  unfold apply_enc_step
  rw [hcv, hnone]

/-- Lines 406–408: stored encoder, label seen. -/
theorem apply_enc_step_seen {E : Encoders} {cv : List (String × FValue)}
    {ws : List Warn} {f : String} {v : FValue} {classes : List String}
    {k : ℕ} (hcv : getCol f cv = some v)
    (hcl : getCol f E = some classes)
    (hev : encode_value classes v = some k) :
    apply_enc_step E cv ws f = (E, setCol f (.num k) cv, ws) := by
  unfold apply_enc_step
  rw [hcv, hcl]
  simp [hev]

/-- Lines 409–412: stored encoder, unseen label; encode to 0 with a
warning. -/
theorem apply_enc_step_unseen2 {E : Encoders} {cv : List (String × FValue)}
    {ws : List Warn} {f : String} {v : FValue} {classes : List String}
    (hcv : getCol f cv = some v)
    (hcl : getCol f E = some classes)
    (hev : encode_value classes v = none) :
    apply_enc_step E cv ws f =
      (E, setCol f (.num 0) cv, ws ++ [.unseenCategory f]) := by
  unfold apply_enc_step
  rw [hcv, hcl]
  simp [hev]

/-- Against a single-class encoder every value encodes to position 0
or raises (and is then replaced by 0): the written value is always
0. -/
theorem encode_singleton (v : FValue) (s : String) :
    encode_value [s] v = some 0 ∨ encode_value [s] v = none := by
  cases v with
  | num q => exact Or.inr rfl
  | nan => exact Or.inr rfl
  | str t =>
    by_cases hst : s = t
    · subst hst
      left
      simp [encode_value, idxOf]
    · right
      simp [encode_value, idxOf, hst]

/-- One iteration is insensitive, up to `EncR`, to which of two
related encoder maps it runs against: the columns come out equal and
the maps stay related. -/
theorem apply_enc_step_stable {E E' : Encoders} (hR : EncR E E')
    (cv : List (String × FValue)) (ws ws' : List Warn) (f : String) :
    (apply_enc_step E cv ws f).2.1 = (apply_enc_step E' cv ws' f).2.1 ∧
    EncR (apply_enc_step E cv ws f).1 (apply_enc_step E' cv ws' f).1 := by
  rcases hcv : getCol f cv with _ | v
  · rw [apply_enc_step_no_col hcv, apply_enc_step_no_col hcv]
    exact ⟨rfl, hR⟩
  · rcases hR f with heq | hsgl
    · rcases hE : getCol f E with _ | classes
      · have hE' : getCol f E' = none := by rw [← heq]; exact hE
        rw [apply_enc_step_fit hcv hE, apply_enc_step_fit hcv hE']
        refine ⟨rfl, ?_⟩
        intro g
        by_cases hgf : g = f
        · subst hgf
          rw [getCol_append_single_self g _ hE,
            getCol_append_single_self g _ hE']
          exact Or.inl rfl
        · rw [getCol_append_single_ne _ E hgf,
            getCol_append_single_ne _ E' hgf]
          exact hR g
      · have hE' : getCol f E' = some classes := by rw [← heq]; exact hE
        rcases hev : encode_value classes v with _ | k
        · rw [apply_enc_step_unseen2 hcv hE hev,
            apply_enc_step_unseen2 hcv hE' hev]
          exact ⟨rfl, hR⟩
        · rw [apply_enc_step_seen hcv hE hev,
            apply_enc_step_seen hcv hE' hev]
          exact ⟨rfl, hR⟩
    · have norm : ∀ (F : Encoders) (wsx : List Warn),
          sglOpt (getCol f F) →
          (apply_enc_step F cv wsx f).2.1 = setCol f (.num 0) cv ∧
          ∀ g, getCol g (apply_enc_step F cv wsx f).1 = getCol g F ∨
            (g = f ∧ sglOpt (getCol g (apply_enc_step F cv wsx f).1)) := by
        intro F wsx hsg
        rcases hsg with hn | ⟨s, hs⟩
        · rw [apply_enc_step_fit hcv hn]
          refine ⟨rfl, ?_⟩
          intro g
          by_cases hgf : g = f
          · subst hgf
            refine Or.inr ⟨rfl, ?_⟩
            rw [getCol_append_single_self g _ hn]
            exact Or.inr ⟨_, rfl⟩
          · exact Or.inl (getCol_append_single_ne _ F hgf)
        · rcases encode_singleton v s with hev | hev
          · rw [apply_enc_step_seen hcv hs hev]
            exact ⟨by norm_num, fun g => Or.inl rfl⟩
          · rw [apply_enc_step_unseen2 hcv hs hev]
            exact ⟨rfl, fun g => Or.inl rfl⟩
      obtain ⟨c1, e1⟩ := norm E ws hsgl.1
      obtain ⟨c2, e2⟩ := norm E' ws' hsgl.2
      refine ⟨by rw [c1, c2], ?_⟩
      intro g
      rcases e1 g with h1 | ⟨hgf, h1⟩
      · rcases e2 g with h2 | ⟨hgf, h2⟩
        · rw [h1, h2]; exact hR g
        · subst hgf
          rw [h1]
          exact Or.inr ⟨hsgl.1, h2⟩
      · subst hgf
        rcases e2 g with h2 | ⟨_, h2⟩
        · rw [h2]
          exact Or.inr ⟨h1, hsgl.2⟩
        · exact Or.inr ⟨h1, h2⟩

/-- The whole loop produces the same columns against `EncR`-related
encoder maps. -/
theorem apply_encoders_stable {E E' : Encoders} {fs : List String}
    {cv : List (String × FValue)} {ws ws' : List Warn}
    (hR : EncR E E') :
    (apply_encoders E cv ws fs).2.1 = (apply_encoders E' cv ws' fs).2.1 := by
  induction fs generalizing E E' cv ws ws' with
  | nil => rfl
  | cons f t ih =>
    rw [apply_encoders_cons, apply_encoders_cons]
    have hstep := apply_enc_step_stable hR cv ws ws' f
    rw [hstep.1]
    exact ih hstep.2

/-- The loop's final encoder map extends the base map only by fresh
singleton entries, provided its starting map already did. -/
theorem apply_encoders_ext {E₀ E : Encoders} {fs : List String}
    {cv : List (String × FValue)} {ws : List Warn}
    (h : EncExt E₀ E) :
    EncExt E₀ (apply_encoders E cv ws fs).1 := by
  induction fs generalizing E cv ws with
  | nil => exact h
  | cons f t ih =>
    rw [apply_encoders_cons]
    refine ih ?_
    rcases hcv : getCol f cv with _ | v
    · rw [apply_enc_step_no_col hcv]
      exact h
    · rcases hE : getCol f E with _ | classes
      · rw [apply_enc_step_fit hcv hE]
        constructor
        · intro g hg
          have heq : getCol g E = getCol g E₀ := h.1 g hg
          have hgf : g ≠ f := by
            intro hq
            subst hq
            rw [hE] at heq
            rw [← heq] at hg
            simp at hg
          rw [getCol_append_single_ne _ E hgf, heq]
        · intro g hg
          by_cases hgf : g = f
          · subst hgf
            rw [getCol_append_single_self g _ hE]
            exact Or.inr ⟨_, rfl⟩
          · rw [getCol_append_single_ne _ E hgf]
            exact h.2 g hg
      · rcases hev : encode_value classes v with _ | k
        · rw [apply_enc_step_unseen2 hcv hE hev]
          exact h
        · rw [apply_enc_step_seen hcv hE hev]
          exact h

theorem encR_symm {E E' : Encoders} (h : EncR E E') : EncR E' E := by
  intro f
  rcases h f with h' | h'
  · exact Or.inl h'.symm
  · exact Or.inr ⟨h'.2, h'.1⟩

theorem preprocess_fst_stable {b : Bundle} {E : Encoders}
    (cols : List (String × FValue)) (h : EncExt b.label_encoders E) :
    (preprocess_features { b with label_encoders := E } cols).1 =
    (preprocess_features b cols).1 := by
  have hcols : (encoded_state { b with label_encoders := E } cols).2.1 =
      (encoded_state b cols).2.1 := by
    unfold encoded_state
    exact apply_encoders_stable (encR_symm (encExt_encR h))
  unfold preprocess_features
  rw [hcols]
  cases astype_float (encoded_state b cols).2.1 <;> simp [scale_features]

theorem preprocess_snd {b : Bundle} {cols : List (String × FValue)} :
    (preprocess_features b cols).2.2 = (encoded_state b cols).1 := by
  unfold preprocess_features
  split <;> rfl

/-- A prediction result is unchanged when the encoder map is replaced
by any fresh-singleton extension of it — the key fact behind batch
independence. -/
theorem predict_fst_ext {b : Bundle} {E : Encoders} (x : RawInput)
    (h : EncExt b.label_encoders E) :
    (predict { b with label_encoders := E } x).1 = (predict b x).1 := by
  unfold predict
  cases hv : validate_input x with
  | error m => simp
  | ok vd =>
    have hp := preprocess_fst_stable (engineer_features vd) h
    cases hpp : (preprocess_features b (engineer_features vd)).1 with
    | error m =>
      have hpp' : (preprocess_features { b with label_encoders := E }
          (engineer_features vd)).1 = .error m := by rw [hp, hpp]
      simp [hpp, hpp']
    | ok v =>
      have hpp' : (preprocess_features { b with label_encoders := E }
          (engineer_features vd)).1 = .ok v := by rw [hp, hpp]
      simp [hpp, hpp']
      rfl

/-- The encoder map a prediction leaves behind is always a
fresh-singleton extension of the original. -/
theorem predict_snd_ext {b : Bundle} {E : Encoders} (x : RawInput)
    (h : EncExt b.label_encoders E) :
    EncExt b.label_encoders
      (predict { b with label_encoders := E } x).2 := by
  unfold predict
  cases hv : validate_input x with
  | error m =>
    simp
    exact h
  | ok vd =>
    cases hpp : (preprocess_features { b with label_encoders := E }
        (engineer_features vd)).1 <;>
      simp [hpp] <;>
      · rw [preprocess_snd]
        unfold encoded_state
        exact apply_encoders_ext h

/-- The per-item results of a batch, each computed against the
*initial* bundle and tagged with its index. -/
def tag_from (b : Bundle) (i : ℕ) : List RawInput → List (PredResult × ℕ)
  | [] => []
  | x :: t => ((predict b x).1, i) :: tag_from b (i + 1) t

theorem predict_batch_from_eq {b : Bundle} {E : Encoders} {i : ℕ}
    {xs : List RawInput} (h : EncExt b.label_encoders E) :
    (predict_batch_from b E i xs).1 = tag_from b i xs := by
  induction xs generalizing E i with
  | nil => rfl
  | cons x t ih =>
    show ((predict { b with label_encoders := E } x).1, i) ::
        (predict_batch_from b (predict { b with label_encoders := E } x).2
          (i + 1) t).1 =
      ((predict b x).1, i) :: tag_from b (i + 1) t
    rw [predict_fst_ext x h, ih (predict_snd_ext x h)]

theorem tag_from_get? (b : Bundle) (xs : List RawInput) (i j : ℕ) :
    (tag_from b i xs).get? j =
      (xs.get? j).map (fun x => ((predict b x).1, i + j)) := by
  induction xs generalizing i j with
  | nil => simp [tag_from]
  | cons x t ih =>
    cases j with
    | zero => simp [tag_from]
    | succ j' =>
      simp only [tag_from, List.get?]
      rw [ih (i + 1) j']
      have : i + 1 + j' = i + (j' + 1) := by omega
      rw [this]

theorem tag_from_length (b : Bundle) (i : ℕ) (xs : List RawInput) :
    (tag_from b i xs).length = xs.length := by
  induction xs generalizing i with
  | nil => rfl
  | cons x t ih => simp [tag_from, ih]

/-- Every engineered column is either one of the string columns or
holds a number. -/
theorem engineer_entries (vd : ValidatedInput) :
    ∀ p ∈ engineer_features vd,
      p.1 ∈ string_cols ∨ ∃ q, p.2 = FValue.num q := by
  intro p hp
  fin_cases hp <;>
    first
      | (right
         exact ⟨_, rfl⟩)
      | (left
         simp [string_cols])

theorem getCol_num_of_entries {l : List (String × FValue)}
    (h : ∀ p ∈ l, p.1 ∈ string_cols ∨ ∃ q, p.2 = FValue.num q)
    {f : String} (hf : f ∉ string_cols) :
    getCol f l = none ∨ ∃ q, getCol f l = some (.num q) := by
  induction l with
  | nil => exact Or.inl rfl
  | cons p t ih =>
    obtain ⟨n, u⟩ := p
    by_cases hn : n = f
    · subst hn
      rcases h (n, u) (List.mem_cons_self _ _) with h' | ⟨q, h'⟩
      · exact absurd h' hf
      · simp only at h'
        subst h'
        exact Or.inr ⟨q, by simp [getCol]⟩
    · rcases ih (fun r hr => h r (List.mem_cons_of_mem _ hr)) with h' | h' <;>
        simp only [getCol, if_neg hn]
      · exact Or.inl h'
      · exact Or.inr h'

/-- Every engineered column outside `string_cols` holds a number (or
does not exist). -/
theorem engineered_num {f : String} (hf : f ∉ string_cols)
    (vd : ValidatedInput) :
    getCol f (engineer_features vd) = none ∨
    ∃ q, getCol f (engineer_features vd) = some (.num q) :=
  getCol_num_of_entries (engineer_entries vd) hf

theorem mem_setCol {α : Type} {p : String × α} {g : String} {v : α}
    {l : List (String × α)} (h : p ∈ setCol g v l) :
    (p ∈ l ∧ p.1 ≠ g) ∨ p = (g, v) := by
  induction l with
  | nil => cases h
  | cons q t ih =>
    obtain ⟨n, w⟩ := q
    by_cases hn : n = g
    · subst hn
      simp only [setCol, if_pos rfl] at h
      rcases List.mem_cons.mp h with h' | h'
      · exact Or.inr h'
      · rcases ih h' with ⟨h1, h2⟩ | h2
        · exact Or.inl ⟨List.mem_cons_of_mem _ h1, h2⟩
        · exact Or.inr h2
    · simp only [setCol, if_neg hn] at h
      rcases List.mem_cons.mp h with h' | h'
      · subst h'
        exact Or.inl ⟨List.mem_cons_self _ _, hn⟩
      · rcases ih h' with ⟨h1, h2⟩ | h2
        · exact Or.inl ⟨List.mem_cons_of_mem _ h1, h2⟩
        · exact Or.inr h2

/-- The columns after one iteration: untouched (no column) or the
column written with a number. -/
theorem apply_enc_step_col_cases2 (E : Encoders)
    (cv : List (String × FValue)) (ws : List Warn) (g : String) :
    (getCol g cv = none ∧ (apply_enc_step E cv ws g).2.1 = cv) ∨
    ∃ q : ℚ, (apply_enc_step E cv ws g).2.1 = setCol g (.num q) cv := by
  rcases hcv : getCol g cv with _ | v
  · rw [apply_enc_step_no_col hcv]
    exact Or.inl ⟨hcv ▸ rfl, rfl⟩
  · rcases hE : getCol g E with _ | classes
    · rw [apply_enc_step_fit hcv hE]
      exact Or.inr ⟨0, rfl⟩
    · rcases hev : encode_value classes v with _ | k
      · rw [apply_enc_step_unseen2 hcv hE hev]
        exact Or.inr ⟨0, rfl⟩
      · rw [apply_enc_step_seen hcv hE hev]
        exact Or.inr ⟨k, rfl⟩

/-- Every entry of the encoded columns either survives from the input
frame untouched by the loop or holds a number. -/
theorem apply_encoders_entry {E : Encoders} {cv : List (String × FValue)}
    {ws : List Warn} {fs : List String} :
    ∀ p ∈ (apply_encoders E cv ws fs).2.1,
      (p ∈ cv ∧ (p.1 ∈ fs → getCol p.1 cv = none)) ∨
      ∃ q : ℚ, p.2 = .num q := by
  induction fs generalizing E cv ws with
  | nil =>
    intro p hp
    exact Or.inl ⟨hp, fun h => absurd h (List.not_mem_nil _)⟩
  | cons g t ih =>
    intro p hp
    rw [apply_encoders_cons] at hp
    rcases ih p hp with ⟨hmem, hcond⟩ | hnum
    · rcases apply_enc_step_col_cases2 E cv ws g with ⟨hnone, hcv'⟩ |
        ⟨q, hset⟩
      · rw [hcv'] at hmem hcond
        refine Or.inl ⟨hmem, ?_⟩
        intro hin
        rcases List.mem_cons.mp hin with h' | h'
        · rw [h']; exact hnone
        · exact hcond h'
      · rw [hset] at hmem hcond
        rcases mem_setCol hmem with ⟨h1, h2⟩ | h2
        · refine Or.inl ⟨h1, ?_⟩
          intro hin
          rcases List.mem_cons.mp hin with h' | h'
          · exact absurd h' h2
          · have := hcond h'
            rwa [getCol_setCol_ne _ cv h2] at this
        · exact Or.inr ⟨q, by rw [h2]⟩
    · exact Or.inr hnum

/-- The filled value of a schema feature outside the categorical list
is numeric, under schema well-formedness. -/
theorem filled_num {b : Bundle} {f : String} (hwf : BundleWF b)
    (hall : f ∈ b.all_features) (hcat : f ∉ b.categorical_features)
    (vd : ValidatedInput) :
    ∃ q : ℚ,
      (getCol f (fill_missing b (engineer_features vd)).1).getD (.num 0) =
        .num q := by
  have hstr : f ∉ string_cols := fun hs => hcat (hwf f hs hall)
  rcases hcol : getCol f (engineer_features vd) with _ | u
  · have hmem : f ∈ b.all_features.filter
        (fun g => (getCol g (engineer_features vd)).isNone) := by
      simp [List.mem_filter, hall, hcol]
    unfold fill_missing
    rw [getCol_append_of_none _ _ hcol, getCol_map_pair_of_mem _ hmem]
    unfold default_fill
    rw [if_neg hcat]
    split_ifs <;> exact ⟨0, rfl⟩
  · rcases engineered_num hstr vd with h' | ⟨q, h'⟩
    · rw [hcol] at h'; cases h'
    · rw [hcol] at h'
      obtain ⟨rfl⟩ : u = .num q := by cases h'; rfl
      unfold fill_missing
      rw [getCol_append_of_isSome _ _ (by rw [hcol]; rfl), hcol]
      exact ⟨q, rfl⟩

theorem astype_ok {l : List (String × FValue)}
    (h : ∀ p ∈ l, ∃ q : ℚ, p.2 = .num q) :
    ∃ v, astype_float l = .ok v := by
  induction l with
  | nil => exact ⟨[], rfl⟩
  | cons p t ih =>
    obtain ⟨n, u⟩ := p
    obtain ⟨q, hq⟩ := h (n, u) (List.mem_cons_self _ _)
    simp only at hq
    subst hq
    obtain ⟨v, hv⟩ := ih (fun r hr => h r (List.mem_cons_of_mem _ hr))
    exact ⟨q :: v, by simp [astype_float, hv, Except.map]⟩

/-- Under schema well-formedness the cast of line 421 never fails. -/
theorem preprocess_ok {b : Bundle} (hwf : BundleWF b)
    (vd : ValidatedInput) :
    ∃ v, (preprocess_features b (engineer_features vd)).1 = .ok v := by
  have hentries : ∀ p ∈ (encoded_state b (engineer_features vd)).2.1,
      ∃ q : ℚ, p.2 = .num q := by
    intro p hp
    rcases apply_encoders_entry p hp with ⟨hmem, hcond⟩ | hnum
    · obtain ⟨f, hfall, hpf⟩ := List.mem_map.mp hmem
      subst hpf
      refine filled_num hwf hfall ?_ vd
      intro hcat
      have hsome : (getCol f
          (select_features b (fill_missing b (engineer_features vd)).1)).isSome :=
        (getCol_select_isSome b _ f).mpr hfall
      rw [hcond hcat] at hsome
      cases hsome
    · exact hnum
  obtain ⟨v, hv⟩ := astype_ok hentries
  exact ⟨(scale_features b v).1, by simp [preprocess_features, hv]⟩

theorem getCol_append_some {α : Type} {k : String}
    {l₁ : List (String × α)} (l₂ : List (String × α)) {w : α}
    (h : getCol k l₁ = some w) : getCol k (l₁ ++ l₂) = some w := by
  rw [getCol_append_of_isSome _ _ (by rw [h]; rfl)]
  exact h

/-- With the network model loaded, the predictions dict always has a
`'neural_network'` entry. -/
theorem run_models_has_nn {b : Bundle} {v : List ℚ} {f : List ℚ → ℚ}
    (hnn : b.neural_network = some f) :
    getCol "neural_network" (run_models b v) = some (f v) := by
  have h0 : getCol "neural_network" [("neural_network", f v)] =
      some (f v) := by simp [getCol]
  simp only [run_models, hnn]
  split
  · split
    · split
      · apply getCol_append_some
        apply getCol_append_some
        apply getCol_append_some
        apply getCol_append_some
        exact h0
      · apply getCol_append_some
        apply getCol_append_some
        apply getCol_append_some
        exact h0
    · apply getCol_append_some
      apply getCol_append_some
      apply getCol_append_some
      exact h0
  · exact h0

theorem select_and_package_of_nn {b : Bundle} {ps : List (String × ℚ)}
    (h : (getCol "neural_network" ps).isSome) :
    ∃ r, select_and_package b ps = .ok r := by
  unfold select_and_package
  split
  · exact ⟨_, rfl⟩
  · split
    · exact ⟨_, rfl⟩
    · rename_i hnone
      rw [hnone] at h
      cases h

/-- With a well-formed schema and a loaded network model, a prediction
succeeds exactly when validation passes. -/
theorem predict_some_iff_valid {b : Bundle} (hwf : BundleWF b)
    (hnn : b.neural_network.isSome) (x : RawInput) :
    (predict b x).1.predicted_priceO.isSome = valid_input x := by
  cases hv : validate_input x with
  | error m =>
    simp [predict, hv, valid_input, PredResult.predicted_priceO]
  | ok vd =>
    obtain ⟨fnn, hfnn⟩ := Option.isSome_iff_exists.mp hnn
    obtain ⟨v, hpv⟩ := preprocess_ok hwf vd
    have hhas : (getCol "neural_network" (run_models b v)).isSome := by
      rw [run_models_has_nn (v := v) hfnn]
      rfl
    obtain ⟨r, hr⟩ := select_and_package_of_nn (b := b) hhas
    simp [predict, hv, hpv, hr, valid_input, PredResult.predicted_priceO]

/-- C6: the batch operation returns exactly one result per input, in
order; the result at index `i` is the original-bundle prediction for
input `i` tagged with `i` — so no item (valid or failing) can abort or
alter another item's result, even though the loop threads the mutable
encoder map through the items; and (for a well-formed schema with the
network model loaded) an item's price is present exactly when that
item passes validation, so only invalid items come back with a null
price. -/
theorem predict_batch_independent_indexed (b : Bundle)
    (xs : List RawInput) :
    (predict_batch b xs).1.length = xs.length ∧
    (∀ i, (predict_batch b xs).1.get? i =
      (xs.get? i).map (fun x => ((predict b x).1, i))) ∧
    (BundleWF b → b.neural_network.isSome → ∀ x : RawInput,
      (predict b x).1.predicted_priceO.isSome = valid_input x) := by
  have hb : (predict_batch b xs).1 = tag_from b 0 xs := by
    unfold predict_batch
    exact predict_batch_from_eq (encExt_refl _)
  refine ⟨?_, ?_, ?_⟩
  · rw [hb]
    exact tag_from_length b 0 xs
  · intro i
    rw [hb, tag_from_get? b xs 0 i]
    simp
  · intro hwf hnn x
    exact predict_some_iff_valid hwf hnn x

/-- A minimal well-formed single-model bundle for the batch witness. -/
def wf_bundle : Bundle :=
  { neural_network := some (fun _ => 150)
    rf_model := none
    gb_model := none
    ridge_model := none
    scaler := some (fun v => v)
    label_encoders := []
    all_features := ["latitude"]
    categorical_features := []
    numerical_features := []
    binary_features := []
    ensemble_weights := none
    model_version := "enhanced_v2" }

/-- The example input made invalid by a negative `minimum_nights`. -/
def bad_input : RawInput := { example_input with minimum_nights := -1 }

/-- Witness for C6: a two-item batch with an invalid second item
returns two results, in order and tagged, with only the invalid index
priced `None`. -/
theorem predict_batch_independent_indexed_witness :
    (predict_batch wf_bundle [example_input, bad_input]).1.length = 2 ∧
    (predict_batch wf_bundle [example_input, bad_input]).1.get? 1 =
      some ((predict wf_bundle bad_input).1, 1) ∧
    (predict wf_bundle bad_input).1.predicted_priceO = none ∧
    (predict wf_bundle example_input).1.predicted_priceO.isSome = true := by
  have h := predict_batch_independent_indexed wf_bundle
    [example_input, bad_input]
  have hwf : BundleWF wf_bundle := by decide
  have hnn : wf_bundle.neural_network.isSome := rfl
  have hvbad : valid_input bad_input = false := by
    norm_num [valid_input, validate_input, bad_input, example_input]
  refine ⟨h.1, ?_, ?_, ?_⟩
  · rw [h.2.1 1]
    rfl
  · have h3 := h.2.2 hwf hnn bad_input
    rw [hvbad] at h3
    cases hp : (predict wf_bundle bad_input).1.predicted_priceO with
    | none => rfl
    | some q =>
      rw [hp] at h3
      simp at h3
  · have h4 := h.2.2 hwf hnn example_input
    rw [h4]
    simp [valid_input, example_input_validates]

end Airbnb